import Mathlib

/-
Verification of the zz parser front end (src/parser.rs) against its
natural-language specification.

The grammar engine (pest) produces a tree of rule-tagged nodes, each
carrying a byte span and the raw source text it covers.  The parser walks
that tree and builds the AST.  We embed the node tree as an inductive
type, the AST types literally, and every parser function as an
executable Lean function.  Rust failure modes are made explicit in an
error type:
  * `PErr.pest`     : the `?`-propagated grammar error of `ZZParser::parse`;
  * `PErr.fatal c s`: `error!(...)` followed by `std::process::exit(c)`,
                      carrying the exit code and the logged string;
  * `PErr.panicked` : a Rust panic (`panic!`, `unwrap` on `None`,
                      `Vec::remove` out of bounds, `unreachable!`);
  * `PErr.fuel`     : recursion fuel exhausted (artifact of the embedding;
                      every theorem supplies enough fuel explicitly).
-/

namespace ZZ

/-- A byte range into the source text (pest `Span`).  `stop` is the
exclusive end offset (Rust calls it `end`). -/
structure Span where
  start : Nat
  stop : Nat
deriving DecidableEq

/-- `Location { file, span }` as attached to every AST node. -/
structure Location where
  file : String
  span : Span
deriving DecidableEq

/-- The pest grammar rule tags that `parser.rs` matches on.  Constructor
names follow `Rule::...` except where Lean reserves the word:
`macdecl` is `Rule::imacro`, `macargs` is `Rule::macro_args`,
`infixop` is `Rule::infix`, `import_` is `Rule::import`,
`local_` is `Rule::local`. -/
inductive Rule where
  | file
  | macdecl
  | function
  | key_shared
  | exported
  | ident
  | macargs
  | block
  | ret_arg
  | fn_args
  | vararg
  | EOI
  | struct_d
  | key_packed
  | struct_f
  | import_
  | importname
  | importalias
  | comment
  | istatic
  | constant
  | key_thread_local
  | key_static
  | key_atomic
  | named_type
  | anon_type
  | expr
  | lhs
  | termish
  | infixop
  | unarypre
  | unarypost
  | cast
  | ptr_access
  | member_access
  | array_access
  | type_name
  | number_literal
  | string_literal
  | char_literal
  | deref
  | takeref
  | call
  | call_args
  | array_init
  | struct_init
  | struct_init_field
  | array
  | mark_stm
  | label
  | continue_stm
  | break_stm
  | goto_stm
  | return_stm
  | key_return
  | if_stm
  | elseif_stm
  | else_stm
  | for_stm
  | semicolon
  | vardecl
  | assign
  | assignop
  | ptr
  | key_mut
  | tag_name
  | cimport
  | local_
  | local_i
  | qident
deriving DecidableEq

/-- A grammar node (pest `Pair`): rule tag, covered source text
(`as_str`), byte span (`as_span`), and ordered children (`into_inner`). -/
inductive Node where
  | mk (rule : Rule) (str : String) (span : Span) (children : List Node)

def Node.rule : Node → Rule
  | .mk r _ _ _ => r

def Node.str : Node → String
  | .mk _ s _ _ => s

def Node.span : Node → Span
  | .mk _ _ sp _ => sp

def Node.children : Node → List Node
  | .mk _ _ _ cs => cs

/-- A dotted name (`super::name::Name`, a `Name(Vec<String>)`).
Modelled from the spec: `name.rs` is not under `src/`; the spec only
calls it a dotted name and no claim depends on how the raw text is
split into components, so `fromStr` keeps the raw text as a single
component. -/
structure Name where
  parts : List String
deriving DecidableEq

def Name.fromStr (s : String) : Name := ⟨[s]⟩

/-- `TagSet`.  Modelled from the spec: `ast.rs` is not under `src/`;
the spec describes it as an ordered multimap with insertion order
preserved and duplicate keys allowed — a list of
(key, value, location) triples. -/
structure Tags where
  entries : List (String × String × Location)
deriving DecidableEq

def Tags.new : Tags := ⟨[]⟩

def Tags.insert (t : Tags) (k v : String) (l : Location) : Tags :=
  ⟨t.entries ++ [(k, v, l)]⟩

/-- One pointer indirection level with the tags bound to it. -/
structure Pointer where
  tags : Tags
  loc : Location
deriving DecidableEq

/-- `Typed`: a dotted type name plus the ordered pointer chain. -/
structure Typed where
  name : Name
  loc : Location
  ptr : List Pointer
deriving DecidableEq

inductive Visibility where
  | Object
  | Shared
  | Export
deriving DecidableEq

inductive Storage where
  | Static
  | ThreadLocal
  | Atomic
deriving DecidableEq

/-- The expression AST (`ast::Expression`).  Field order follows the
construction sites in `parser.rs`. -/
inductive Expression where
  | Name (typed : Typed)
  | Literal (v : String) (loc : Location)
  | Call (loc : Location) (name : Typed) (args : List Expression)
  | MemberAccess (lhs : Expression) (rhs : String) (op : String) (loc : Location)
  | ArrayAccess (lhs : Expression) (rhs : Expression) (loc : Location)
  | UnaryPre (expr : Expression) (op : String) (loc : Location)
  | UnaryPost (expr : Expression) (op : String) (loc : Location)
  | Cast (loc : Location) (into : Typed) (expr : Expression)
  | ArrayInit (loc : Location) (fields : List Expression)
  | StructInit (loc : Location) (typed : Typed) (fields : List (String × Expression))
  | InfixOperation (loc : Location) (lhs : Expression)
      (rhs : List ((String × Location) × Expression))

mutual
/-- The statement AST (`ast::Statement`). -/
inductive Statement where
  | Mark (loc : Location) (lhs : Expression) (key : String) (value : String)
  | Label (loc : Location) (label : String)
  | Continue (loc : Location)
  | Break (loc : Location)
  | Goto (loc : Location) (label : String)
  | Block (b : Block)
  | Return (expr : Option Expression) (loc : Location)
  | Expr (expr : Expression) (loc : Location)
  | Cond (op : String) (expr : Option Expression) (body : Block)
  | For (e1 : Option Statement) (e2 : Option Statement) (e3 : Option Statement)
      (body : Block)
  | Var (loc : Location) (typed : Typed) (name : String) (tags : Tags)
      (array : Option Expression) (assign : Option Expression)
  | Assign (loc : Location) (lhs : Expression) (rhs : Expression) (op : String)

/-- `ast::Block`: ordered statements plus the zero-width location at the
closing delimiter (`end_` is the Rust field `end`). -/
inductive Block where
  | mk (statements : List Statement) (end_ : Location)
end

def Block.statements : Block → List Statement
  | .mk ss _ => ss

def Block.end_ : Block → Location
  | .mk _ e => e

/-- Result of `parse_named_type`. -/
structure TypedName where
  name : String
  typed : Typed
  tags : Tags
deriving DecidableEq

structure NamedArg where
  name : String
  typed : Typed
  tags : Tags
  loc : Location

structure AnonArg where
  typed : Typed
deriving DecidableEq

structure Field where
  typed : Typed
  array : Option Expression
  tags : Tags
  name : String
  loc : Location

/-- `ast::Def` (`def_` below is the Rust field `def`). -/
inductive Def where
  | Function (ret : Option AnonArg) (args : List NamedArg) (body : Block)
      (vararg : Bool)
  | Macro (args : List String) (body : Block)
  | Struct (fields : List Field) (packed : Bool)
  | Static (tags : Tags) (storage : Storage) (typed : Typed) (expr : Expression)
  | Const (typed : Typed) (expr : Expression)

structure Local where
  name : String
  export_as : Option String
  vis : Visibility
  loc : Location
  def_ : Def

structure Import where
  name : Name
  alias_ : Option String
  local_ : List (String × Option String)
  vis : Visibility
  loc : Location

structure Module where
  source : String
  sources : List String
  name : List String
  locals : List Local
  imports : List Import

/-- A `pest::error::Error<Rule>`: optional path, offending span,
custom message. -/
structure PestError where
  path : Option String
  span : Span
  message : String
deriving DecidableEq

def PestError.with_path (e : PestError) (p : String) : PestError :=
  { e with path := some p }

/-- Modelled from the spec: pest's `Display` for errors is external to
this repository; the spec only requires that the formatted text carry
the path, a position derived from the byte span, and the message. -/
def PestError.display (e : PestError) : String :=
  "--> " ++ (match e.path with
             | some p => p
             | none => "") ++ ":" ++ toString e.span.start ++ "\n" ++ e.message

/-- `make_error`: builds a pest custom error from a `Location`, with the
location's file attached via `with_path`. -/
def make_error (loc : Location) (message : String) : PestError :=
  ⟨some loc.file, loc.span, message⟩

/-- How a run of the parser can fail (see the header comment). -/
inductive PErr where
  | pest (e : PestError)
  | fatal (code : Nat) (log : String)
  | panicked (msg : String)
  | fuel
deriving DecidableEq

/-- The context threaded as `n : (&'static str, &Path)` through the
parser: the whole source text and the file path. -/
structure Ctx where
  src : String
  path : String

/-- The `Location` built from a node's span, as done at every
construction site (`file: n.to_string_lossy().into(), span: ...`). -/
def nloc (n : Ctx) (node : Node) : Location :=
  ⟨n.path, node.span⟩

def unwrapMsg : String := "called Option::unwrap on a None value"

/-- Modelled from the spec: the macro preprocessor (`pp.rs`, not under
`src/`) wraps every sibling-node sequence and yields a sequence of the
same shape; the builder is verified over the post-preprocessing
sequence, so the wrapper is the identity here. -/
def PP (_path : String) (nodes : List Node) : List Node := nodes

/-- Modelled from the spec: `Path::file_stem` / `Path::canonicalize`
are std collaborators; the module name is derived from the file stem
and no claim depends on the derivation, so the path string itself is
used. -/
def file_stem (s : String) : String := s

/-- Modelled from the spec: `Path::canonicalize` is a std collaborator
(the canonicalized paths only feed dependency tracking); no claim
depends on it, so it is the identity. -/
def canonicalize (s : String) : String := s

/-- The shared left-to-right scan over the non-name children of a type
node: tags accumulate into a pending set that is swapped out each time
a `ptr` child closes a pointer level.  Used verbatim by both
`parse_named_type` and `parse_anon_type` (the Rust code duplicates the
loop; `ctxmsg` selects the panic message of the copy). -/
def typeScan (n : Ctx) (ctxmsg : String) :
    Tags → List Pointer → List Node → Except PErr (Tags × List Pointer)
  | tags, ptr, [] => .ok (tags, ptr)
  | tags, ptr, part :: rest =>
    let loc := nloc n part
    match part.rule with
    | .ptr =>
      typeScan n ctxmsg Tags.new (ptr ++ [⟨tags, loc⟩]) rest
    | .key_mut =>
      typeScan n ctxmsg (tags.insert "mutable" "" loc) ptr rest
    | .tag_name =>
      match part.children with
      | [] => .error (.panicked unwrapMsg)
      | c1 :: cs =>
        let value := match cs.head? with
                     | some c2 => c2.str
                     | none => ""
        typeScan n ctxmsg (tags.insert c1.str value loc) ptr rest
    | _ => .error (.panicked ("unexpected rule in " ++ ctxmsg))

/-- `parse_named_type`: base name first, declared name popped from the
end (a non-`ident` there is the fatal "expected a name"), the rest
scanned into pointer levels and a trailing tag set. -/
def parse_named_type (n : Ctx) (decl : Node) : Except PErr TypedName :=
  match decl.rule with
  | .named_type =>
    let loc := nloc n decl
    match decl.children with
    | [] => .error (.panicked unwrapMsg)
    | tn :: rest =>
      let typename := Name.fromStr tn.str
      match rest.getLast? with
      | none => .error (.panicked unwrapMsg)
      | some name_part =>
        match name_part.rule with
        | .ident =>
          match typeScan n "named_type " Tags.new [] rest.dropLast with
          | .error e => .error e
          | .ok (tags, ptr) =>
            .ok ⟨name_part.str, ⟨typename, loc, ptr⟩, tags⟩
        | _ =>
          .error (.fatal 9 ("syntax error\n" ++
            (make_error (nloc n name_part) "expected a name").display))
  | _ => .error (.panicked "parse_named_type called with unexpected rule")

/-- `parse_anon_type`: like `parse_named_type` but with no declared
name, and a pending tag set left over at the end is the fatal
"anonymous type cannot have storage tags (yet)". -/
def parse_anon_type (n : Ctx) (decl : Node) : Except PErr Typed :=
  match decl.rule with
  | .anon_type =>
    let loc := nloc n decl
    match decl.children with
    | [] => .error (.panicked unwrapMsg)
    | tn :: rest =>
      let name := Name.fromStr tn.str
      match typeScan n "anon_type" Tags.new [] rest with
      | .error e => .error e
      | .ok (tags, ptr) =>
        match tags.entries with
        | (_, _, l) :: _ =>
          .error (.fatal 9 ("syntax error\n" ++
            (make_error l "anonymous type cannot have storage tags (yet)").display))
        | [] => .ok ⟨name, loc, ptr⟩
  | _ => .error (.panicked "parse_anon_type called with unexpected rule")

/-- The `Expression::Name` leaf built for a bare `type_name` child, as
repeated at several places in `parse_expr`. -/
def nameExpr (n : Ctx) (part : Node) : Expression :=
  .Name ⟨Name.fromStr part.str, nloc n part, []⟩

/-- The call builder (`parse_call`), parameterized by the recursive
expression parser `pe`: callee name plus its own location, then the
`call_args` sibling whose children each become an argument. -/
def parse_callF (pe : Node → Except PErr Expression) (n : Ctx) (expr : Node) :
    Except PErr Expression :=
  let loc := nloc n expr
  match expr.children with
  | [] => .error (.panicked unwrapMsg)
  | nm :: rest =>
    let nameloc := nloc n nm
    let name := Name.fromStr nm.str
    match rest.foldlM (fun (_acc : List Expression) part =>
        match part.rule with
        | .call_args => part.children.mapM pe
        | _ => .error (.panicked "unexpected rule in function call")) [] with
    | .error e => .error e
    | .ok args => .ok (.Call loc ⟨name, nameloc, []⟩ args)

/-- One non-`infix` child of an expression node, built into the
sub-expression that the loop then pushes under the pending operator.
`pe` is the recursive `parse_expr` at one fuel step less. -/
def buildOperandF (pe : Node → Except PErr Expression) (n : Ctx) (c : Node) :
    Except PErr Expression :=
  let loc := nloc n c
  match c.rule with
  | .unarypre =>
    match c.children with
    | [] => .error (.panicked unwrapMsg)
    | part :: rest =>
      let op := part.str
      match rest with
      | [] => .error (.panicked unwrapMsg)
      | part2 :: _ =>
        match (match part2.rule with
               | .type_name => .ok (nameExpr n part2)
               | .termish => pe part2
               | _ => .error (.panicked "unexpected rule in unary pre lhs") :
               Except PErr Expression) with
        | .error e => .error e
        | .ok iexpr => .ok (.UnaryPre iexpr op loc)
  | .unarypost =>
    match c.children with
    | [] => .error (.panicked unwrapMsg)
    | part :: rest =>
      match (match part.rule with
             | .type_name => .ok (nameExpr n part)
             | .expr => pe part
             | _ => .error (.panicked "unexpected rule in unary post lhs") :
             Except PErr Expression) with
      | .error e => .error e
      | .ok iexpr =>
        match rest with
        | [] => .error (.panicked unwrapMsg)
        | part2 :: _ => .ok (.UnaryPost iexpr part2.str loc)
  | .cast =>
    match c.children with
    | [] => .error (.panicked unwrapMsg)
    | p1 :: rest =>
      match parse_anon_type n p1 with
      | .error e => .error e
      | .ok into =>
        match rest with
        | [] => .error (.panicked unwrapMsg)
        | p2 :: _ =>
          match pe p2 with
          | .error e => .error e
          | .ok iexpr => .ok (.Cast loc into iexpr)
  | .ptr_access | .member_access | .array_access =>
    let op := match c.rule with
              | .ptr_access => "->"
              | .member_access => "."
              | _ => "["
    match c.children with
    | [] => .error (.panicked unwrapMsg)
    | e1 :: rest =>
      match (match e1.rule with
             | .type_name => .ok (nameExpr n e1)
             | .termish | .expr => pe e1
             | _ => .error (.panicked "unexpected rule in access lhs") :
             Except PErr Expression) with
      | .error e => .error e
      | .ok lhs =>
        if op = "[" then
          match rest with
          | [] => .error (.panicked unwrapMsg)
          | e2 :: _ =>
            match e2.rule with
            | .array =>
              match e2.children with
              | [] => .error (.panicked unwrapMsg)
              | e3 :: _ =>
                match pe e3 with
                | .error e => .error e
                | .ok rhs => .ok (.ArrayAccess lhs rhs loc)
            | _ => .error (.panicked "unexpected rule in array expr")
        else
          match rest with
          | [] => .error (.panicked unwrapMsg)
          | e2 :: _ => .ok (.MemberAccess lhs e2.str op loc)
  | .type_name => .ok (nameExpr n c)
  | .number_literal | .string_literal | .char_literal => .ok (.Literal c.str loc)
  | .expr => pe c
  | .deref | .takeref =>
    let op := match c.rule with
              | .deref => "*"
              | _ => "&"
    match c.children with
    | [] => .error (.panicked unwrapMsg)
    | part :: _ =>
      match (match part.rule with
             | .type_name => .ok (nameExpr n part)
             | .termish => pe part
             | _ => .error (.panicked "unexpected rule in deref lhs") :
             Except PErr Expression) with
      | .error e => .error e
      | .ok iexpr => .ok (.UnaryPre iexpr op loc)
  | .call => parse_callF pe n c
  | .array_init =>
    match c.children.mapM (fun part =>
        (match part.rule with
        | .termish => pe part
        | _ => .error (.panicked "unexpected rule in struct init") :
        Except PErr Expression)) with
    | .error e => .error e
    | .ok fields => .ok (.ArrayInit loc fields)
  | .struct_init =>
    match c.children with
    | [] => .error (.panicked unwrapMsg)
    | p1 :: rest =>
      match parse_anon_type n p1 with
      | .error e => .error e
      | .ok typed =>
        match rest.mapM (fun part =>
            (match part.rule with
            | .struct_init_field =>
              match part.children with
              | [] => .error (.panicked unwrapMsg)
              | nm :: rest2 =>
                match rest2 with
                | [] => .error (.panicked unwrapMsg)
                | pe2 :: _ =>
                  match pe pe2 with
                  | .error e => .error e
                  | .ok ex => .ok (nm.str, ex)
            | _ => .error (.panicked "unexpected rule in struct init") :
            Except PErr (String × Expression))) with
        | .error e => .error e
        | .ok fields => .ok (.StructInit loc typed fields)
  | _ => .error (.panicked "unexpected rule in expr")

/-- The accumulator loop of `parse_expr`: `sop` is the pending
operator slot (`s_op`), `sr` the accumulated pairs (`s_r`).  An
`infix` child refills the slot; every other child is built and pushed
under `s_op.take().unwrap()`.  In the `Rule::expr` and `Rule::call`
arms the Rust code evaluates the `unwrap` before building the operand,
elsewhere after; the order is preserved here. -/
def exprLoopF (build : Node → Except PErr Expression) (n : Ctx) :
    Option (String × Location) → List ((String × Location) × Expression) →
    List Node → Except PErr (List ((String × Location) × Expression))
  | _sop, sr, [] => .ok sr
  | sop, sr, c :: rest =>
    let loc := nloc n c
    if c.rule = .infixop then
      exprLoopF build n (some (c.str, loc)) sr rest
    else if c.rule = .expr ∨ c.rule = .call then
      match sop with
      | none => .error (.panicked unwrapMsg)
      | some op =>
        match build c with
        | .error e => .error e
        | .ok e => exprLoopF build n none (sr ++ [(op, e)]) rest
    else
      match build c with
      | .error e => .error e
      | .ok e =>
        match sop with
        | none => .error (.panicked unwrapMsg)
        | some op => exprLoopF build n none (sr ++ [(op, e)]) rest

def removeMsg : String := "removal index (is 0) should be less than len (is 0)"

/-- `parse_expr`: accepts `lhs`, `expr` or `termish` nodes, runs the
accumulator loop seeded with the empty-string operator paired with the
node's own location, then collapses a single pair to its expression
and otherwise builds the flat `InfixOperation` chain. -/
def parse_expr : Nat → Ctx → Node → Except PErr Expression
  | 0, _, _ => .error .fuel
  | fuel + 1, n, decl =>
    match decl.rule with
    | .lhs | .expr | .termish =>
      match exprLoopF (buildOperandF (parse_expr fuel n) n) n
          (some ("", nloc n decl)) [] decl.children with
      | .error e => .error e
      | .ok sr =>
        match sr with
        | [] => .error (.panicked removeMsg)
        | ((_, loc), lhs) :: rest =>
          match rest with
          | [] => .ok lhs
          | _ => .ok (.InfixOperation loc lhs rest)
    | _ => .error (.panicked "parse_expr call called with unexpected rule")

/-- `parse_block`, parameterized by the statement parser `ps`: captures
the zero-width end-of-span location, then folds the preprocessed
children into statements in order. -/
def parse_blockF (ps : Node → Except PErr Statement) (n : Ctx) (decl : Node) :
    Except PErr Block :=
  match decl.rule with
  | .block =>
    let end_ : Location := ⟨n.path, ⟨decl.span.stop, decl.span.stop⟩⟩
    match (PP n.path decl.children).mapM ps with
    | .error e => .error e
    | .ok statements => .ok (.mk statements end_)
  | _ => .error (.panicked "parse_block called with unexpected rule")

/-- The running state of the `for_stm` loop: three optional slots, the
optional body, and the segment counter `cur` (starting at 1). -/
structure ForState where
  expr1 : Option Statement := none
  expr2 : Option Statement := none
  expr3 : Option Statement := none
  block : Option Block := none
  cur : Nat := 1

/-- One child of a `for_stm` node, routed by the Rust match-arm order:
`semicolon` increments the counter; a `block` child in segment 3 with
no body yet becomes the body; otherwise the child becomes the slot of
the current segment, recursively parsed as a statement. -/
def forStep (ps : Node → Except PErr Statement) (pb : Node → Except PErr Block)
    (st : ForState) (part : Node) : Except PErr ForState :=
  if part.rule = .semicolon then
    .ok { st with cur := st.cur + 1 }
  else if part.rule = .block ∧ st.cur = 3 ∧ st.block.isNone then
    match pb part with
    | .error e => .error e
    | .ok b => .ok { st with block := some b }
  else if st.cur = 1 then
    match ps part with
    | .error e => .error e
    | .ok s => .ok { st with expr1 := some s }
  else if st.cur = 2 then
    match ps part with
    | .error e => .error e
    | .ok s => .ok { st with expr2 := some s }
  else if st.cur = 3 then
    match ps part with
    | .error e => .error e
    | .ok s => .ok { st with expr3 := some s }
  else .error (.panicked "unexpected rule in for")

/-- State of the `vardecl` loop. -/
structure VarState where
  typed : Option TypedName := none
  assign : Option Expression := none
  array : Option Expression := none

/-- State of the `assign` loop. -/
structure AssignState where
  lhs : Option Expression := none
  rhs : Option Expression := none
  op : Option String := none

/-- `parse_statement`: dispatch over the statement node's rule tag.
Recursive calls (`for` slots, nested blocks) run at one fuel step
less; expression children go through `parse_expr` at that same fuel. -/
def parse_statement : Nat → Ctx → Node → Except PErr Statement
  | 0, _, _ => .error .fuel
  | fuel + 1, n, stm =>
    let loc := nloc n stm
    match stm.rule with
    | .mark_stm =>
      match stm.children with
      | [] => .error (.panicked unwrapMsg)
      | p1 :: rest =>
        match parse_expr fuel n p1 with
        | .error e => .error e
        | .ok lhs =>
          match rest with
          | [] => .error (.panicked unwrapMsg)
          | p2 :: _ =>
            match p2.children with
            | [] => .error (.panicked unwrapMsg)
            | k :: rest2 =>
              let value := match rest2.head? with
                           | some v => v.str
                           | none => ""
              .ok (.Mark loc lhs k.str value)
    | .label =>
      match stm.children with
      | [] => .error (.panicked unwrapMsg)
      | p1 :: _ => .ok (.Label loc p1.str)
    | .continue_stm => .ok (.Continue loc)
    | .break_stm => .ok (.Break loc)
    | .goto_stm =>
      match stm.children with
      | [] => .error (.panicked unwrapMsg)
      | p1 :: _ => .ok (.Goto loc p1.str)
    | .block =>
      match parse_blockF (parse_statement fuel n) n stm with
      | .error e => .error e
      | .ok b => .ok (.Block b)
    | .return_stm =>
      match stm.children with
      | [] => .error (.panicked unwrapMsg)
      | key :: rest =>
        match key.rule with
        | .key_return =>
          match rest.head? with
          | some ex =>
            match parse_expr fuel n ex with
            | .error e => .error e
            | .ok ee => .ok (.Return (some ee) loc)
          | none => .ok (.Return none loc)
        | _ => .error (.panicked "expected key_return instead of another rule")
    | .expr =>
      match parse_expr fuel n stm with
      | .error e => .error e
      | .ok ee => .ok (.Expr ee loc)
    | .if_stm =>
      match stm.children with
      | p1 :: p2 :: _ =>
        match parse_expr fuel n p1 with
        | .error e => .error e
        | .ok ee =>
          match parse_blockF (parse_statement fuel n) n p2 with
          | .error e => .error e
          | .ok body => .ok (.Cond "if" (some ee) body)
      | _ => .error (.panicked unwrapMsg)
    | .elseif_stm =>
      match stm.children with
      | p1 :: p2 :: _ =>
        match parse_expr fuel n p1 with
        | .error e => .error e
        | .ok ee =>
          match parse_blockF (parse_statement fuel n) n p2 with
          | .error e => .error e
          | .ok body => .ok (.Cond "else if" (some ee) body)
      | _ => .error (.panicked unwrapMsg)
    | .else_stm =>
      match stm.children with
      | [] => .error (.panicked unwrapMsg)
      | p1 :: _ =>
        match parse_blockF (parse_statement fuel n) n p1 with
        | .error e => .error e
        | .ok body => .ok (.Cond "else" none body)
    | .for_stm =>
      match stm.children.foldlM
          (forStep (parse_statement fuel n) (parse_blockF (parse_statement fuel n) n))
          {} with
      | .error e => .error e
      | .ok st =>
        match st.block with
        | none => .error (.panicked unwrapMsg)
        | some b => .ok (.For st.expr1 st.expr2 st.expr3 b)
    | .vardecl =>
      match stm.children.foldlM (fun (st : VarState) part =>
          (match part.rule with
          | .named_type =>
            match parse_named_type n part with
            | .error e => .error e
            | .ok t => .ok { st with typed := some t }
          | .expr =>
            match parse_expr fuel n part with
            | .error e => .error e
            | .ok ee => .ok { st with assign := some ee }
          | .array =>
            match part.children with
            | [] => .error (.panicked unwrapMsg)
            | a1 :: _ =>
              match parse_expr fuel n a1 with
              | .error e => .error e
              | .ok ee => .ok { st with array := some ee }
          | _ => .error (.panicked "unexpected rule in vardecl") :
          Except PErr VarState)) {} with
      | .error e => .error e
      | .ok st =>
        match st.typed with
        | none => .error (.panicked unwrapMsg)
        | some ⟨name, typed, tags⟩ =>
          .ok (.Var loc typed name tags st.array st.assign)
    | .assign =>
      match stm.children.foldlM (fun (st : AssignState) part =>
          (match part.rule, st.lhs, st.rhs with
          | .lhs, none, _ =>
            match parse_expr fuel n part with
            | .error e => .error e
            | .ok ee => .ok { st with lhs := some ee }
          | .assignop, _, _ => .ok { st with op := some part.str }
          | .expr, _, none =>
            match parse_expr fuel n part with
            | .error e => .error e
            | .ok ee => .ok { st with rhs := some ee }
          | _, _, _ => .error (.panicked "unexpected rule in assign") :
          Except PErr AssignState)) {} with
      | .error e => .error e
      | .ok st =>
        match st.lhs, st.rhs, st.op with
        | some l, some r, some o => .ok (.Assign loc l r o)
        | _, _, _ => .error (.panicked unwrapMsg)
    | _ => .error (.panicked "unexpected rule in block")

/-- `parse_block` proper: one fuel step, then the parameterized body. -/
def parse_block : Nat → Ctx → Node → Except PErr Block
  | 0, _, _ => .error .fuel
  | fuel + 1, n, decl => parse_blockF (parse_statement fuel n) n decl

/-- The inner loop of a `Rule::exported` keyword node (macro, function
and struct declarations): each `ident` child becomes the export
rename, anything else is the "unexpected rule in export" panic. -/
def exportedScan : List Node → Option String → Except PErr (Option String)
  | [], ea => .ok ea
  | c :: rest, _ea =>
    match c.rule with
    | .ident => exportedScan rest (some c.str)
    | _ => .error (.panicked "unexpected rule in export")

/-- State of the `Rule::imacro` loop. -/
structure MacroState where
  name : Option String := none
  args : List String := []
  export_as : Option String := none
  body : Option Block := none
  vis : Visibility := .Object

/-- One child of an `imacro` declaration.  Note the guards: a second
`ident` or a second `block` falls through to the catch-all panic. -/
def macroStep (fuel : Nat) (n : Ctx) (st : MacroState) (part : Node) :
    Except PErr MacroState :=
  match part.rule, st.name, st.body with
  | .key_shared, _, _ => .ok { st with vis := .Shared }
  | .exported, _, _ =>
    match exportedScan part.children st.export_as with
    | .error e => .error e
    | .ok ea => .ok { st with vis := .Export, export_as := ea }
  | .ident, none, _ => .ok { st with name := some part.str }
  | .macargs, _, _ =>
    .ok { st with args := st.args ++ part.children.map Node.str }
  | .block, _, none =>
    match parse_block fuel n part with
    | .error e => .error e
    | .ok b => .ok { st with body := some b }
  | _, _, _ => .error (.panicked "unexpected rule in macro")

/-- `Rule::imacro`: fold the children, then `name.unwrap()` and
`body.unwrap()` into the `Def::Macro` local. -/
def parseMacroDecl (fuel : Nat) (n : Ctx) (loc : Location) (parts : List Node) :
    Except PErr Local :=
  match parts.foldlM (macroStep fuel n) {} with
  | .error e => .error e
  | .ok st =>
    match st.name, st.body with
    | some name, some body =>
      .ok ⟨name, st.export_as, st.vis, loc, .Macro st.args body⟩
    | _, _ => .error (.panicked unwrapMsg)

/-- State of the `Rule::function` loop. -/
structure FunctionState where
  name : String := ""
  export_as : Option String := none
  args : List NamedArg := []
  ret : Option AnonArg := none
  body : Option Block := none
  vararg : Bool := false
  vis : Visibility := .Object

/-- One child of a `function` declaration.  `ident` and `block` are
unguarded (a later one overwrites); `fn_args` folds its children into
`NamedArg`s, with a `vararg` child setting the flag. -/
def functionStep (fuel : Nat) (n : Ctx) (st : FunctionState) (part : Node) :
    Except PErr FunctionState :=
  match part.rule with
  | .key_shared => .ok { st with vis := .Shared }
  | .exported =>
    match exportedScan part.children st.export_as with
    | .error e => .error e
    | .ok ea => .ok { st with vis := .Export, export_as := ea }
  | .ident => .ok { st with name := part.str }
  | .ret_arg =>
    match part.children with
    | [] => .error (.panicked unwrapMsg)
    | p1 :: _ =>
      match parse_anon_type n p1 with
      | .error e => .error e
      | .ok typed => .ok { st with ret := some ⟨typed⟩ }
  | .fn_args =>
    match part.children.foldlM (fun (acc : List NamedArg × Bool) arg =>
        (if arg.rule = .vararg then
          .ok (acc.1, true)
        else
          match parse_named_type n arg with
          | .error e => .error e
          | .ok ⟨name, typed, tags⟩ =>
            .ok (acc.1 ++ [⟨name, typed, tags, nloc n arg⟩], acc.2) :
        Except PErr (List NamedArg × Bool))) (st.args, st.vararg) with
    | .error e => .error e
    | .ok (args, va) => .ok { st with args := args, vararg := va }
  | .block =>
    match parse_block fuel n part with
    | .error e => .error e
    | .ok b => .ok { st with body := some b }
  | _ => .error (.panicked "unexpected rule in function")

/-- `Rule::function`: fold the children, then `body.unwrap()` into the
`Def::Function` local. -/
def parseFunctionDecl (fuel : Nat) (n : Ctx) (loc : Location)
    (parts : List Node) : Except PErr Local :=
  match parts.foldlM (functionStep fuel n) {} with
  | .error e => .error e
  | .ok st =>
    match st.body with
    | some body =>
      .ok ⟨st.name, st.export_as, st.vis, loc,
           .Function st.ret st.args body st.vararg⟩
    | none => .error (.panicked unwrapMsg)

/-- State of the `Rule::struct_d` loop. -/
structure StructState where
  vis : Visibility := .Object
  name : Option String := none
  export_as : Option String := none
  fields : List Field := []
  loc : Option Location := none
  packed : Bool := false

/-- One child of a `struct_d` declaration (the children themselves go
through the preprocessor).  The struct's own location is taken from
its `ident` child; a `struct_f` child is a named-type field plus an
optional array-size child. -/
def structStep (fuel : Nat) (n : Ctx) (st : StructState) (part : Node) :
    Except PErr StructState :=
  match part.rule with
  | .key_packed => .ok { st with packed := true }
  | .key_shared => .ok { st with vis := .Shared }
  | .exported =>
    match exportedScan part.children st.export_as with
    | .error e => .error e
    | .ok ea => .ok { st with vis := .Export, export_as := ea }
  | .ident =>
    .ok { st with loc := some (nloc n part), name := some part.str }
  | .struct_f =>
    let floc := nloc n part
    match part.children with
    | [] => .error (.panicked unwrapMsg)
    | p1 :: rest =>
      match parse_named_type n p1 with
      | .error e => .error e
      | .ok ⟨name, typed, tags⟩ =>
        match rest with
        | [] =>
          .ok { st with fields := st.fields ++ [⟨typed, none, tags, name, floc⟩] }
        | arr :: _ =>
          match arr.children with
          | [] => .error (.panicked unwrapMsg)
          | a1 :: _ =>
            match parse_expr fuel n a1 with
            | .error e => .error e
            | .ok ee =>
              .ok { st with
                    fields := st.fields ++ [⟨typed, some ee, tags, name, floc⟩] }
  | _ => .error (.panicked "unexpected rule in struct")

/-- `Rule::struct_d`: fold the preprocessed children, then
`name.unwrap()` and `loc.unwrap()` into the `Def::Struct` local. -/
def parseStructDecl (fuel : Nat) (n : Ctx) (parts : List Node) :
    Except PErr Local :=
  match (PP n.path parts).foldlM (structStep fuel n) {} with
  | .error e => .error e
  | .ok st =>
    match st.name, st.loc with
    | some name, some loc =>
      .ok ⟨name, st.export_as, st.vis, loc, .Struct st.fields st.packed⟩
    | _, _ => .error (.panicked unwrapMsg)

/-- `parse_importname`: walks an import path node, accumulating the
dotted-name components and the optional `local` sub-binding list; a
`cimport` child resets the components to the external form. -/
def parse_importname : Nat → Node → Except PErr (Name × List (String × Option String))
  | 0, _ => .error .fuel
  | fuel + 1, decl =>
    match decl.children.foldlM
        (fun (acc : List String × List (String × Option String)) part =>
          (match part.rule with
          | .cimport => .ok (["", "ext", part.str], acc.2)
          | .ident => .ok (acc.1 ++ [part.str], acc.2)
          | .local_ =>
            match part.children.foldlM
                (fun (acc2 : List String × List (String × Option String)) p2 =>
                  (match p2.rule with
                  | .local_i =>
                    match p2.children with
                    | [] => .error (.panicked unwrapMsg)
                    | nm :: rest =>
                      match (match nm.rule with
                             | .ident => .ok nm.str
                             | .qident =>
                               match nm.children with
                               | [] => .error (.panicked unwrapMsg)
                               | c1 :: _ => .ok c1.str
                             | _ => .error (.panicked "unreachable") :
                             Except PErr String) with
                      | .error e => .error e
                      | .ok nmStr =>
                        .ok (acc2.1, acc2.2 ++ [(nmStr, rest.head?.map Node.str)])
                  | _ => .error (.panicked "unexpected rule in local") :
                  Except PErr (List String × List (String × Option String)))) acc with
            | .error e => .error e
            | .ok acc2 => .ok acc2
          | .type_name | .importname =>
            match parse_importname fuel part with
            | .error e => .error e
            | .ok (name2, locals2) =>
              .ok (acc.1 ++ name2.parts, acc.2 ++ locals2)
          | _ => .error (.panicked "unexpected rule in import name") :
          Except PErr (List String × List (String × Option String)))) ([], []) with
    | .error e => .error e
    | .ok acc => .ok (⟨acc.1⟩, acc.2)

/-- State of the `Rule::import` loop. -/
structure ImportState where
  vis : Visibility := .Object
  importname : Option (Name × List (String × Option String)) := none
  alias_ : Option String := none

/-- One child of an `import` declaration.  Note that `exported` here
only sets visibility — no rename is read. -/
def importStep (fuel : Nat) (st : ImportState) (part : Node) :
    Except PErr ImportState :=
  match part.rule with
  | .importname =>
    match parse_importname fuel part with
    | .error e => .error e
    | .ok v => .ok { st with importname := some v }
  | .exported => .ok { st with vis := .Export }
  | .importalias =>
    match part.children with
    | [] => .error (.panicked unwrapMsg)
    | p1 :: _ => .ok { st with alias_ := some p1.str }
  | _ => .error (.panicked "unexpected rule in import")

/-- `Rule::import`: fold the children, then `importname.unwrap()` into
the `Import` record. -/
def parseImportDecl (fuel : Nat) (loc : Location) (parts : List Node) :
    Except PErr Import :=
  match parts.foldlM (importStep fuel) {} with
  | .error e => .error e
  | .ok st =>
    match st.importname with
    | some (name, local_) => .ok ⟨name, st.alias_, local_, st.vis, loc⟩
    | none => .error (.panicked unwrapMsg)

/-- State of the shared `Rule::istatic | Rule::constant` loop. -/
structure SCState where
  storage : Storage := .Static
  vis : Visibility := .Object
  typed : Option TypedName := none
  expr : Option Expression := none

/-- The log line of the static-visibility error: the Rust code logs
`"{} : {}"` with the path and the pest error (no `with_path`), then
exits with status 9. -/
def staticVisLog (n : Ctx) (part : Node) : String :=
  n.path ++ " : " ++
    (PestError.mk none part.span "cannot change visibility of static variable").display

/-- One child of an `istatic`/`constant` declaration, keyed by the
originating rule: `shared`/`export` on an `istatic` is the fatal
visibility error; a second `expr` child falls through to the
catch-all panic. -/
def scStep (fuel : Nat) (n : Ctx) (rule : Rule) (st : SCState) (part : Node) :
    Except PErr SCState :=
  match part.rule, st.expr with
  | .key_thread_local, _ => .ok { st with storage := .ThreadLocal }
  | .key_static, _ => .ok { st with storage := .Static }
  | .key_atomic, _ => .ok { st with storage := .Atomic }
  | .key_shared, _ =>
    if rule = .istatic then .error (.fatal 9 (staticVisLog n part))
    else .ok { st with vis := .Shared }
  | .exported, _ =>
    if rule = .istatic then .error (.fatal 9 (staticVisLog n part))
    else .ok { st with vis := .Export }
  | .named_type, _ =>
    match parse_named_type n part with
    | .error e => .error e
    | .ok t => .ok { st with typed := some t }
  | .expr, none =>
    match parse_expr fuel n part with
    | .error e => .error e
    | .ok ee => .ok { st with expr := some ee }
  | _, _ => .error (.panicked "unexpected rule in static")

/-- `Rule::istatic | Rule::constant`: fold the children, destructure
the `TypedName`, then build `Def::Const` (rejecting leftover tags,
`export_as` hardcoded `None`) or `Def::Static` (visibility hardcoded
`Object`, `export_as` hardcoded `None`). -/
def parseStaticConst (fuel : Nat) (n : Ctx) (rule : Rule) (loc : Location)
    (parts : List Node) : Except PErr Local :=
  match parts.foldlM (scStep fuel n rule) {} with
  | .error e => .error e
  | .ok st =>
    match st.typed with
    | none => .error (.panicked unwrapMsg)
    | some ⟨name, typed, tags⟩ =>
      match rule with
      | .constant =>
        match tags.entries with
        | (_, _, l) :: _ =>
          .error (.fatal 9 ("syntax error\n" ++
            (make_error l "anonymous type cannot have storage tags (yet)").display))
        | [] =>
          match st.expr with
          | none => .error (.panicked unwrapMsg)
          | some ee => .ok ⟨name, none, st.vis, loc, .Const typed ee⟩
      | .istatic =>
        match st.expr with
        | none => .error (.panicked unwrapMsg)
        | some ee =>
          .ok ⟨name, none, .Object, loc, .Static tags st.storage typed ee⟩
      | _ => .error (.panicked "unreachable")

/-- What one top-level node contributes to the module: the locals and
imports its branch pushes.  `EOI` and `comment` contribute nothing;
an unknown rule is the "unexpected rule in file" panic. -/
def declEffect (fuel : Nat) (n : Ctx) (decl : Node) :
    Except PErr (List Local × List Import) :=
  let loc := nloc n decl
  match decl.rule with
  | .macdecl =>
    match parseMacroDecl fuel n loc decl.children with
    | .error e => .error e
    | .ok l => .ok ([l], [])
  | .function =>
    match parseFunctionDecl fuel n loc decl.children with
    | .error e => .error e
    | .ok l => .ok ([l], [])
  | .EOI => .ok ([], [])
  | .struct_d =>
    match parseStructDecl fuel n decl.children with
    | .error e => .error e
    | .ok l => .ok ([l], [])
  | .import_ =>
    match parseImportDecl fuel loc decl.children with
    | .error e => .error e
    | .ok i => .ok ([], [i])
  | .comment => .ok ([], [])
  | .istatic | .constant =>
    match parseStaticConst fuel n decl.rule loc decl.children with
    | .error e => .error e
    | .ok l => .ok ([l], [])
  | _ => .error (.panicked "unexpected rule in file")

/-- One iteration of the top-level loop of `p`: the branch for the
node's rule runs and pushes its locals/imports at the end of the
module's lists. -/
def pStep (fuel : Nat) (n : Ctx) (m : Module) (decl : Node) :
    Except PErr Module :=
  match declEffect fuel n decl with
  | .error e => .error e
  | .ok (ls, is) =>
    .ok { m with locals := m.locals ++ ls, imports := m.imports ++ is }

/-- `p`: sets up the module (source path, canonicalized source set,
name from the file stem), propagates the grammar engine's error with
`?`, and folds the preprocessed top-level nodes.  The grammar engine
itself is external: its outcome — the root `file` node or a pest
error — is the `pest` argument. -/
def p (fuel : Nat) (path : String) (src : String)
    (pest : Except PestError Node) : Except PErr Module :=
  match pest with
  | .error e => .error (.pest e)
  | .ok root =>
    let m0 : Module := ⟨path, [canonicalize path], [file_stem path], [], []⟩
    (PP path root.children).foldlM (pStep fuel ⟨src, path⟩) m0

/-- `parse`: the entry point.  A pest error from `p` is logged as
`"syntax error\n{}"` (with the path attached) and the process exits
with status 9; otherwise the module is returned.  Fatal exits and
panics from inside `p` already terminated the process and pass
through. -/
def parse (fuel : Nat) (path : String) (src : String)
    (pest : Except PestError Node) : Except PErr Module :=
  match p fuel path src pest with
  | .error (.pest e) =>
    .error (.fatal 9 ("syntax error\n" ++ (e.with_path path).display))
  | .error err => .error err
  | .ok md => .ok md

/-! ## Characterizing the type-descriptor scan (claims C2 and C5) -/

/-- A child node that the type scan treats as one attribute tag:
either the `mut` keyword or a well-formed `tag_name` node (a
`tag_name` without children would hit the `unwrap` panic). -/
def tagNodeOK (t : Node) : Prop :=
  t.rule = .key_mut ∨ (t.rule = .tag_name ∧ t.children ≠ [])

/-- The (key, value, location) entry the scan inserts for one tag
node. -/
def tagEntry (n : Ctx) (t : Node) : String × String × Location :=
  let loc := nloc n t
  match t.rule with
  | .key_mut => ("mutable", "", loc)
  | _ =>
    match t.children with
    | [] => ("", "", loc)
    | c1 :: cs =>
      (c1.str, (match cs.head? with
                | some c2 => c2.str
                | none => ""), loc)

/-- One written pointer level: the tag nodes preceding a `ptr` token,
and that token. -/
structure PtrLevel where
  tags : List Node
  ptrNode : Node

def PtrLevel.nodes (l : PtrLevel) : List Node := l.tags ++ [l.ptrNode]

def PtrLevel.ok (l : PtrLevel) : Prop :=
  (∀ t ∈ l.tags, tagNodeOK t) ∧ l.ptrNode.rule = .ptr

/-- The `Pointer` the scan produces for one written level. -/
def levelPtr (n : Ctx) (l : PtrLevel) : Pointer :=
  ⟨⟨l.tags.map (tagEntry n)⟩, nloc n l.ptrNode⟩

/-- The child sequence of a chain of written pointer levels. -/
def levelsNodes (ls : List PtrLevel) : List Node := ls.flatMap PtrLevel.nodes

theorem typeScan_tags (n : Ctx) (msg : String) (ts : List Node)
    (h : ∀ t ∈ ts, tagNodeOK t) (tags : Tags) (ptr : List Pointer)
    (rest : List Node) :
    typeScan n msg tags ptr (ts ++ rest) =
      typeScan n msg ⟨tags.entries ++ ts.map (tagEntry n)⟩ ptr rest := by
  induction ts generalizing tags with
  | nil => simp
  | cons t ts ih =>
    have ht := h t (by simp)
    have hrest : ∀ x ∈ ts, tagNodeOK x := fun x hx => h x (by simp [hx])
    rcases ht with hmut | ⟨htag, hch⟩
    · rw [List.cons_append]
      rw [show typeScan n msg tags ptr (t :: (ts ++ rest)) =
            typeScan n msg (tags.insert "mutable" "" (nloc n t)) ptr (ts ++ rest) by
        simp [typeScan, hmut]]
      rw [ih hrest]
      simp [Tags.insert, tagEntry, hmut]
    · rcases hc : t.children with _ | ⟨c1, cs⟩
      · exact absurd hc hch
      · rw [List.cons_append]
        rw [show typeScan n msg tags ptr (t :: (ts ++ rest)) =
              typeScan n msg
                (tags.insert c1.str
                  (match cs.head? with
                   | some c2 => c2.str
                   | none => "") (nloc n t)) ptr (ts ++ rest) by
          simp [typeScan, htag, hc]]
        rw [ih hrest]
        have hne : t.rule ≠ Rule.key_mut := by simp [htag]
        simp [Tags.insert, tagEntry, htag, hc]

theorem typeScan_run (n : Ctx) (msg : String) (ts : List Node)
    (h : ∀ t ∈ ts, tagNodeOK t) (ptr : List Pointer) :
    typeScan n msg Tags.new ptr ts = .ok (⟨ts.map (tagEntry n)⟩, ptr) := by
  have h2 := typeScan_tags n msg ts h Tags.new ptr []
  rw [List.append_nil] at h2
  rw [h2]
  simp [typeScan, Tags.new]

theorem typeScan_levels (n : Ctx) (msg : String) (ls : List PtrLevel)
    (h : ∀ l ∈ ls, PtrLevel.ok l) (ptr : List Pointer) (rest : List Node) :
    typeScan n msg Tags.new ptr (levelsNodes ls ++ rest) =
      typeScan n msg Tags.new (ptr ++ ls.map (levelPtr n)) rest := by
  induction ls generalizing ptr with
  | nil => simp [levelsNodes]
  | cons l ls ih =>
    have hl := h l (by simp)
    have hrest : ∀ x ∈ ls, PtrLevel.ok x := fun x hx => h x (by simp [hx])
    have hsp : levelsNodes (l :: ls) ++ rest =
        l.tags ++ ([l.ptrNode] ++ (levelsNodes ls ++ rest)) := by
      simp [levelsNodes, PtrLevel.nodes]
    rw [hsp, typeScan_tags n msg l.tags hl.1]
    rw [show typeScan n msg ⟨Tags.new.entries ++ l.tags.map (tagEntry n)⟩ ptr
          ([l.ptrNode] ++ (levelsNodes ls ++ rest)) =
        typeScan n msg Tags.new (ptr ++ [levelPtr n l]) (levelsNodes ls ++ rest) by
      simp [typeScan, hl.2, Tags.new, levelPtr]]
    rw [ih hrest]
    simp

theorem typeScan_full (n : Ctx) (msg : String) (ls : List PtrLevel)
    (hls : ∀ l ∈ ls, PtrLevel.ok l) (trailing : List Node)
    (htr : ∀ t ∈ trailing, tagNodeOK t) :
    typeScan n msg Tags.new [] (levelsNodes ls ++ trailing) =
      .ok (⟨trailing.map (tagEntry n)⟩, ls.map (levelPtr n)) := by
  rw [typeScan_levels n msg ls hls [] trailing,
      typeScan_run n msg trailing htr]
  simp

/-- Claim C2: for a named type written with the pointer levels `ls`
(each some tag nodes followed by a `*` token), then trailing tag
nodes, then the declared name, `parse_named_type` produces a pointer
chain of length exactly `ls.length` whose i-th level carries exactly
the tag entries written before the i-th `*`, the trailing tags as the
declaration's own tag set, and the name from the final child. -/
theorem C2_pointer_chain_fidelity (n : Ctx) (s : String) (sp : Span) (tn : Node)
    (ls : List PtrLevel) (trailing : List Node) (idN : Node)
    (hls : ∀ l ∈ ls, PtrLevel.ok l) (htr : ∀ t ∈ trailing, tagNodeOK t)
    (hid : idN.rule = .ident) :
    parse_named_type n (.mk .named_type s sp (tn :: (levelsNodes ls ++ trailing ++ [idN]))) =
      .ok ⟨idN.str, ⟨Name.fromStr tn.str, ⟨n.path, sp⟩, ls.map (levelPtr n)⟩,
           ⟨trailing.map (tagEntry n)⟩⟩
    ∧ (ls.map (levelPtr n)).length = ls.length := by
  constructor
  · rcases idN with ⟨ir, istr, isp, ich⟩
    simp only [Node.rule] at hid
    subst hid
    have hsplit : levelsNodes ls ++ (trailing ++ [Node.mk .ident istr isp ich]) =
        (levelsNodes ls ++ trailing) ++ [Node.mk .ident istr isp ich] := by
      simp
    simp only [parse_named_type, Node.rule, Node.children, List.append_assoc]
    rw [hsplit, List.getLast?_concat, List.dropLast_concat]
    rw [typeScan_full n _ ls hls trailing htr]
    simp [nloc, Node.span, Node.str]
  · simp

/-- Witness for C2: a named type written as
`int mut * @align=8 * @volatile x` — two pointer levels, the first
tagged `mutable`, the second tagged `align`, and a trailing
`volatile` tag that lands on the declaration itself. -/
theorem C2_pointer_chain_fidelity_witness :
    parse_named_type ⟨"", "w.zz"⟩
      (.mk .named_type "" ⟨0, 24⟩
        [.mk .type_name "int" ⟨0, 3⟩ [],
         .mk .key_mut "mut" ⟨4, 7⟩ [],
         .mk .ptr "*" ⟨8, 9⟩ [],
         .mk .tag_name "@align=8" ⟨10, 18⟩
           [.mk .ident "align" ⟨11, 16⟩ [], .mk .string_literal "8" ⟨17, 18⟩ []],
         .mk .ptr "*" ⟨19, 20⟩ [],
         .mk .tag_name "@volatile" ⟨21, 22⟩ [.mk .ident "volatile" ⟨21, 22⟩ []],
         .mk .ident "x" ⟨23, 24⟩ []]) =
      .ok ⟨"x", ⟨Name.fromStr "int", ⟨"w.zz", ⟨0, 24⟩⟩,
            [⟨⟨[("mutable", "", ⟨"w.zz", ⟨4, 7⟩⟩)]⟩, ⟨"w.zz", ⟨8, 9⟩⟩⟩,
             ⟨⟨[("align", "8", ⟨"w.zz", ⟨10, 18⟩⟩)]⟩, ⟨"w.zz", ⟨19, 20⟩⟩⟩]⟩,
           ⟨[("volatile", "", ⟨"w.zz", ⟨21, 22⟩⟩)]⟩⟩ := by
  have h := C2_pointer_chain_fidelity ⟨"", "w.zz"⟩ "" ⟨0, 24⟩
    (.mk .type_name "int" ⟨0, 3⟩ [])
    [⟨[.mk .key_mut "mut" ⟨4, 7⟩ []], .mk .ptr "*" ⟨8, 9⟩ []⟩,
     ⟨[.mk .tag_name "@align=8" ⟨10, 18⟩
         [.mk .ident "align" ⟨11, 16⟩ [], .mk .string_literal "8" ⟨17, 18⟩ []]],
       .mk .ptr "*" ⟨19, 20⟩ []⟩]
    [.mk .tag_name "@volatile" ⟨21, 22⟩ [.mk .ident "volatile" ⟨21, 22⟩ []]]
    (.mk .ident "x" ⟨23, 24⟩ [])
    (by intro l hl
        simp [PtrLevel.ok] at hl ⊢
        rcases hl with h1 | h2
        · subst h1; simp [tagNodeOK, Node.rule]
        · subst h2; simp [tagNodeOK, Node.rule, Node.children]
      )
    (by intro t ht
        simp at ht
        subst ht
        simp [tagNodeOK, Node.rule, Node.children]
      )
    rfl
  exact h.1

/-- Claim C5: for an anonymous type (the form used for cast targets,
struct-initializer targets and function return types), tags written
before a `*` token are absorbed into that pointer level and the parse
succeeds, while tag nodes trailing after the base name or the last
`*` token are the fatal "anonymous type cannot have storage tags
(yet)" error. -/
theorem C5_anon_type_tag_restriction (n : Ctx) (s : String) (sp : Span)
    (tn : Node) (ls : List PtrLevel) (trailing : List Node)
    (hls : ∀ l ∈ ls, PtrLevel.ok l) (htr : ∀ t ∈ trailing, tagNodeOK t) :
    parse_anon_type n (.mk .anon_type s sp (tn :: (levelsNodes ls ++ trailing))) =
      (match trailing.map (tagEntry n) with
       | [] => .ok ⟨Name.fromStr tn.str, ⟨n.path, sp⟩, ls.map (levelPtr n)⟩
       | (_, _, l) :: _ => .error (.fatal 9 ("syntax error\n" ++
           (make_error l "anonymous type cannot have storage tags (yet)").display))) := by
  simp only [parse_anon_type, Node.rule, Node.children]
  rw [typeScan_full n _ ls hls trailing htr]
  rcases htl : trailing.map (tagEntry n) with _ | ⟨⟨k, v, l⟩, tl⟩ <;>
    simp [nloc, Node.span]

/-- Witness for C5: `int mut *` as an anonymous type succeeds with one
`mutable`-tagged pointer level, while `int @volatile` is the fatal
tag error. -/
theorem C5_anon_type_tag_restriction_witness :
    parse_anon_type ⟨"", "w.zz"⟩
      (.mk .anon_type "" ⟨0, 9⟩
        [.mk .type_name "int" ⟨0, 3⟩ [],
         .mk .key_mut "mut" ⟨4, 7⟩ [],
         .mk .ptr "*" ⟨8, 9⟩ []]) =
      .ok ⟨Name.fromStr "int", ⟨"w.zz", ⟨0, 9⟩⟩,
           [⟨⟨[("mutable", "", ⟨"w.zz", ⟨4, 7⟩⟩)]⟩, ⟨"w.zz", ⟨8, 9⟩⟩⟩]⟩
    ∧ parse_anon_type ⟨"", "w.zz"⟩
        (.mk .anon_type "" ⟨0, 13⟩
          [.mk .type_name "int" ⟨0, 3⟩ [],
           .mk .tag_name "@volatile" ⟨4, 13⟩ [.mk .ident "volatile" ⟨5, 13⟩ []]]) =
      .error (.fatal 9 ("syntax error\n" ++
        (make_error ⟨"w.zz", ⟨4, 13⟩⟩ "anonymous type cannot have storage tags (yet)").display)) := by
  constructor
  · exact C5_anon_type_tag_restriction ⟨"", "w.zz"⟩ "" ⟨0, 9⟩
      (.mk .type_name "int" ⟨0, 3⟩ [])
      [⟨[.mk .key_mut "mut" ⟨4, 7⟩ []], .mk .ptr "*" ⟨8, 9⟩ []⟩] []
      (by intro l hl
          simp at hl
          subst hl
          simp [PtrLevel.ok, tagNodeOK, Node.rule]
        )
      (by intro t ht; simp at ht)
  · exact C5_anon_type_tag_restriction ⟨"", "w.zz"⟩ "" ⟨0, 13⟩
      (.mk .type_name "int" ⟨0, 3⟩ []) []
      [.mk .tag_name "@volatile" ⟨4, 13⟩ [.mk .ident "volatile" ⟨5, 13⟩ []]]
      (by intro l hl; simp at hl)
      (by intro t ht
          simp at ht
          subst ht
          simp [tagNodeOK, Node.rule, Node.children]
        )

/-! ## Characterizing the infix accumulator loop (claims C1 and C9) -/

theorem buildOperand_ok_not_infix (pe : Node → Except PErr Expression)
    (n : Ctx) (c : Node) (e : Expression)
    (h : buildOperandF pe n c = .ok e) : c.rule ≠ .infixop := by
  intro hc
  rw [show buildOperandF pe n c = .error (.panicked "unexpected rule in expr") by
    simp [buildOperandF, hc]] at h
  exact absurd h (by simp)

/-- Processing one operand child with a filled pending-operator slot:
the pair is appended and the slot is emptied. -/
theorem exprLoopF_operand (build : Node → Except PErr Expression) (n : Ctx)
    (c : Node) (e : Expression) (op : String × Location)
    (sr : List ((String × Location) × Expression)) (rest : List Node)
    (hc : c.rule ≠ .infixop) (hb : build c = .ok e) :
    exprLoopF build n (some op) sr (c :: rest) =
      exprLoopF build n none (sr ++ [(op, e)]) rest := by
  by_cases hec : c.rule = .expr ∨ c.rule = .call <;>
    simp [exprLoopF, hc, hec, hb]

/-- The alternating core of the loop: from an emptied slot, each
(infix token, operand) pair appends exactly one entry, in order. -/
theorem exprLoopF_chain (build : Node → Except PErr Expression) (n : Ctx)
    (ops : List (Node × Node)) (es : List Expression)
    (h : List.Forall₂ (fun oc e => oc.1.rule = .infixop ∧
        oc.2.rule ≠ .infixop ∧ build oc.2 = .ok e) ops es)
    (sr : List ((String × Location) × Expression)) :
    exprLoopF build n none sr (ops.flatMap (fun oc => [oc.1, oc.2])) =
      .ok (sr ++ (ops.zip es).map (fun p => ((p.1.1.str, nloc n p.1.1), p.2))) := by
  induction h generalizing sr with
  | nil => simp [exprLoopF]
  | @cons oc e ops' es' hpair hrest ih =>
    have h1 : exprLoopF build n none sr
        (oc.1 :: oc.2 :: ops'.flatMap (fun oc => [oc.1, oc.2])) =
        exprLoopF build n (some (oc.1.str, nloc n oc.1)) sr
          (oc.2 :: ops'.flatMap (fun oc => [oc.1, oc.2])) := by
      simp [exprLoopF, hpair.1]
    rw [List.flatMap_cons]
    simp only [List.cons_append, List.nil_append]
    rw [h1, exprLoopF_operand build n oc.2 e _ sr _ hpair.2.1 hpair.2.2, ih]
    simp

/-- All-`infix` children only refill the slot; the accumulator is
returned unchanged. -/
theorem exprLoopF_all_infix (build : Node → Except PErr Expression) (n : Ctx)
    (cs : List Node) (h : ∀ c ∈ cs, c.rule = .infixop)
    (sop : Option (String × Location))
    (sr : List ((String × Location) × Expression)) :
    exprLoopF build n sop sr cs = .ok sr := by
  induction cs generalizing sop with
  | nil => simp [exprLoopF]
  | cons c cs ih =>
    have hc := h c (by simp)
    rw [show exprLoopF build n sop sr (c :: cs) =
        exprLoopF build n (some (c.str, nloc n c)) sr cs by simp [exprLoopF, hc]]
    exact ih (fun x hx => h x (by simp [hx])) _

/-- Finalization of `parse_expr` in terms of its loop result. -/
theorem parse_expr_of_loop (fuel : Nat) (n : Ctx) (r : Rule) (s : String)
    (sp : Span) (cs : List Node)
    (hr : r = .lhs ∨ r = .expr ∨ r = .termish) :
    parse_expr (fuel + 1) n (.mk r s sp cs) =
      (match exprLoopF (buildOperandF (parse_expr fuel n) n) n
          (some ("", (⟨n.path, sp⟩ : Location))) [] cs with
       | .error e => .error e
       | .ok sr =>
         match sr with
         | [] => .error (.panicked removeMsg)
         | ((_, loc), lhs) :: rest =>
           match rest with
           | [] => .ok lhs
           | _ => .ok (.InfixOperation loc lhs rest)) := by
  rcases hr with hr | hr | hr <;> subst hr <;>
    simp only [parse_expr, Node.rule, Node.children] <;> rfl

/-- Claim C1: for an expression node whose children are an operand
followed by `m` (infix token, operand) pairs — each operand built
successfully by the per-child builder — `parse_expr` returns the
first operand unchanged when `m = 0`, and otherwise an
`InfixOperation` whose `lhs` is the first operand, whose `rhs` has
exactly `m` entries in left-to-right order, and whose location is the
one paired with the first accumulated entry (the node's own span). -/
theorem C1_infix_chain (fuel : Nat) (n : Ctx) (r : Rule) (s : String) (sp : Span)
    (c0 : Node) (ops : List (Node × Node)) (es : List Expression) (e0 : Expression)
    (hr : r = .lhs ∨ r = .expr ∨ r = .termish)
    (h0 : buildOperandF (parse_expr fuel n) n c0 = .ok e0)
    (hops : List.Forall₂ (fun oc e => oc.1.rule = .infixop ∧
        buildOperandF (parse_expr fuel n) n oc.2 = .ok e) ops es) :
    parse_expr (fuel + 1) n
        (.mk r s sp (c0 :: ops.flatMap (fun oc => [oc.1, oc.2]))) =
      .ok (if ops.isEmpty then e0
           else .InfixOperation ⟨n.path, sp⟩ e0
             ((ops.zip es).map (fun p => ((p.1.1.str, nloc n p.1.1), p.2))))
    ∧ ((ops.zip es).map (fun p => ((p.1.1.str, nloc n p.1.1), p.2))).length = ops.length := by
  have hops' : List.Forall₂ (fun oc e => oc.1.rule = .infixop ∧
      oc.2.rule ≠ .infixop ∧
      buildOperandF (parse_expr fuel n) n oc.2 = .ok e) ops es :=
    hops.imp (fun a b h => ⟨h.1, buildOperand_ok_not_infix _ _ _ _ h.2, h.2⟩)
  have hc0 : c0.rule ≠ .infixop := buildOperand_ok_not_infix _ _ _ _ h0
  have hloop : exprLoopF (buildOperandF (parse_expr fuel n) n) n
      (some ("", (⟨n.path, sp⟩ : Location))) []
      (c0 :: ops.flatMap (fun oc => [oc.1, oc.2])) =
      .ok ((("", (⟨n.path, sp⟩ : Location)), e0) ::
        (ops.zip es).map (fun p => ((p.1.1.str, nloc n p.1.1), p.2))) := by
    rw [exprLoopF_operand _ n c0 e0 _ [] _ hc0 h0,
        exprLoopF_chain _ n ops es hops' _]
    simp
  have hlen : es.length = ops.length := hops.length_eq.symm
  have hfin := parse_expr_of_loop fuel n r s sp
    (c0 :: ops.flatMap (fun oc => [oc.1, oc.2])) hr
  constructor
  · rw [hfin, hloop]
    rcases ops with _ | ⟨oc, ops'⟩
    · rcases es with _ | ⟨e, es'⟩
      · simp
      · simp at hlen
    · rcases es with _ | ⟨e, es'⟩
      · simp at hlen
      · simp
  · simp [hlen]

/-- Witness for C1: `1 + 2 * x` — two outer infix tokens yield an
`InfixOperation` with two `rhs` entries in order, anchored at the
node's own span. -/
theorem C1_infix_chain_witness :
    parse_expr 1 ⟨"", "w1.zz"⟩
      (.mk .expr "1 + 2 * x" ⟨0, 9⟩
        [.mk .number_literal "1" ⟨0, 1⟩ [],
         .mk .infixop "+" ⟨2, 3⟩ [],
         .mk .number_literal "2" ⟨4, 5⟩ [],
         .mk .infixop "*" ⟨6, 7⟩ [],
         .mk .type_name "x" ⟨8, 9⟩ []]) =
      .ok (.InfixOperation ⟨"w1.zz", ⟨0, 9⟩⟩ (.Literal "1" ⟨"w1.zz", ⟨0, 1⟩⟩)
        [(("+", ⟨"w1.zz", ⟨2, 3⟩⟩), .Literal "2" ⟨"w1.zz", ⟨4, 5⟩⟩),
         (("*", ⟨"w1.zz", ⟨6, 7⟩⟩),
          .Name ⟨Name.fromStr "x", ⟨"w1.zz", ⟨8, 9⟩⟩, []⟩)]) := by
  have h := C1_infix_chain 0 ⟨"", "w1.zz"⟩ .expr "1 + 2 * x" ⟨0, 9⟩
    (.mk .number_literal "1" ⟨0, 1⟩ [])
    [(.mk .infixop "+" ⟨2, 3⟩ [], .mk .number_literal "2" ⟨4, 5⟩ []),
     (.mk .infixop "*" ⟨6, 7⟩ [], .mk .type_name "x" ⟨8, 9⟩ [])]
    [.Literal "2" ⟨"w1.zz", ⟨4, 5⟩⟩,
     .Name ⟨Name.fromStr "x", ⟨"w1.zz", ⟨8, 9⟩⟩, []⟩]
    (.Literal "1" ⟨"w1.zz", ⟨0, 1⟩⟩)
    (Or.inr (Or.inl rfl)) rfl
    (.cons ⟨rfl, rfl⟩ (.cons ⟨rfl, rfl⟩ .nil))
  exact h.1

/-- Claim C9: `parse_expr` is partial outside the
operand-first-then-alternating shape.  With no operand-producing
child at all (children all `infix` tokens, or none) the final
`s_r.remove(0)` panics; with two adjacent operand children and no
`infix` token between them the second `s_op.take().unwrap()` panics.
Neither is a user-facing syntax error. -/
theorem C9_parse_expr_partiality (fuel : Nat) (n : Ctx) (r : Rule) (s : String)
    (sp : Span) (cs : List Node) (c0 c1 : Node) (e0 e1 : Expression)
    (hr : r = .lhs ∨ r = .expr ∨ r = .termish) :
    ((∀ c ∈ cs, c.rule = .infixop) →
      parse_expr (fuel + 1) n (.mk r s sp cs) = .error (.panicked removeMsg))
    ∧ (buildOperandF (parse_expr fuel n) n c0 = .ok e0 →
       buildOperandF (parse_expr fuel n) n c1 = .ok e1 →
       parse_expr (fuel + 1) n (.mk r s sp [c0, c1]) =
         .error (.panicked unwrapMsg)) := by
  constructor
  · intro h
    rw [parse_expr_of_loop fuel n r s sp cs hr,
        exprLoopF_all_infix _ n cs h _ _]
  · intro h0 h1
    have hc0 := buildOperand_ok_not_infix _ _ _ _ h0
    have hc1 := buildOperand_ok_not_infix _ _ _ _ h1
    rw [parse_expr_of_loop fuel n r s sp [c0, c1] hr,
        exprLoopF_operand _ n c0 e0 _ [] [c1] hc0 h0]
    by_cases hec : c1.rule = .expr ∨ c1.rule = .call
    · simp [exprLoopF, hc1, hec]
    · simp [exprLoopF, hc1, hec, h1]

/-- Witness for C9: a lone `+` token panics at the empty-accumulator
removal; `1 2` (two literals, no operator between) panics at the
taken-twice operator slot. -/
theorem C9_parse_expr_partiality_witness :
    parse_expr 1 ⟨"", "w9.zz"⟩ (.mk .expr "+" ⟨0, 1⟩ [.mk .infixop "+" ⟨0, 1⟩ []]) =
      .error (.panicked removeMsg)
    ∧ parse_expr 1 ⟨"", "w9.zz"⟩
        (.mk .expr "1 2" ⟨0, 3⟩
          [.mk .number_literal "1" ⟨0, 1⟩ [], .mk .number_literal "2" ⟨2, 3⟩ []]) =
      .error (.panicked unwrapMsg) := by
  constructor
  · exact (C9_parse_expr_partiality 0 ⟨"", "w9.zz"⟩ .expr "+" ⟨0, 1⟩
      [.mk .infixop "+" ⟨0, 1⟩ []]
      (.mk .infixop "+" ⟨0, 1⟩ []) (.mk .infixop "+" ⟨0, 1⟩ [])
      (.Literal "" ⟨"", ⟨0, 0⟩⟩) (.Literal "" ⟨"", ⟨0, 0⟩⟩)
      (Or.inr (Or.inl rfl))).1
      (by intro c hc
          simp at hc
          subst hc
          rfl)
  · exact (C9_parse_expr_partiality 0 ⟨"", "w9.zz"⟩ .expr "1 2" ⟨0, 3⟩ []
      (.mk .number_literal "1" ⟨0, 1⟩ []) (.mk .number_literal "2" ⟨2, 3⟩ [])
      (.Literal "1" ⟨"w9.zz", ⟨0, 1⟩⟩) (.Literal "2" ⟨"w9.zz", ⟨2, 3⟩⟩)
      (Or.inr (Or.inl rfl))).2 rfl rfl

/-! ## The for-loop segment router (claim C8) -/

/-- Claim C8: a `for_stm` node's children are routed by the segment
counter: it starts at 1, each `semicolon` child increments it, a
non-semicolon child in segment 1/2/3 becomes the init/condition/step
slot (recursively parsed as a boxed `Statement`), and a `block` child
in segment 3 with no body taken yet becomes the loop body. -/
theorem C8_for_segment_routing (fuel : Nat) (n : Ctx) (s : String) (sp : Span)
    (a b c : Option Node) (semi1 semi2 bk : Node)
    (sa sb sc : Option Statement) (blk : Block)
    (hs1 : semi1.rule = .semicolon) (hs2 : semi2.rule = .semicolon)
    (ha : match a, sa with
          | none, none => True
          | some x, some st => x.rule ≠ .semicolon ∧
              parse_statement fuel n x = .ok st
          | _, _ => False)
    (hb : match b, sb with
          | none, none => True
          | some x, some st => x.rule ≠ .semicolon ∧
              parse_statement fuel n x = .ok st
          | _, _ => False)
    (hc : match c, sc with
          | none, none => True
          | some x, some st => x.rule ≠ .semicolon ∧ x.rule ≠ .block ∧
              parse_statement fuel n x = .ok st
          | _, _ => False)
    (hbk : bk.rule = .block)
    (hblk : parse_blockF (parse_statement fuel n) n bk = .ok blk) :
    parse_statement (fuel + 1) n
      (.mk .for_stm s sp
        (a.toList ++ [semi1] ++ b.toList ++ [semi2] ++ c.toList ++ [bk])) =
      .ok (.For sa sb sc blk) := by
  obtain ⟨r1, ss1, ssp1, scs1⟩ := semi1
  obtain ⟨r2, ss2, ssp2, scs2⟩ := semi2
  obtain ⟨rbk, bks, bksp, bkcs⟩ := bk
  simp only [Node.rule] at hs1 hs2 hbk
  subst hs1
  subst hs2
  subst hbk
  rcases a with _ | ⟨ra, sa1, sa2, sa3⟩ <;> rcases sa with _ | sta <;>
    rcases b with _ | ⟨rb, sb1, sb2, sb3⟩ <;> rcases sb with _ | stb <;>
      rcases c with _ | ⟨rc, sc1, sc2, sc3⟩ <;> rcases sc with _ | stc <;>
  first
  | exact ha.elim
  | exact hb.elim
  | exact hc.elim
  | (try (obtain ⟨ha1, ha2⟩ := ha; simp only [Node.rule] at ha1)
     try (obtain ⟨hb1, hb2⟩ := hb; simp only [Node.rule] at hb1)
     try (obtain ⟨hc1, hc2, hc3⟩ := hc; simp only [Node.rule] at hc1 hc2)
     simp only [Option.toList, List.singleton_append, List.cons_append,
       List.nil_append, List.append_nil]
     simp [parse_statement, Node.rule, Node.children, List.foldlM,
       forStep, hblk, Bind.bind, Except.bind, Pure.pure, Except.pure, *])

/-- Witness for C8: `for continue; continue; continue {}` — each slot
filled from its segment, the block child in segment 3 becoming the
body. -/
theorem C8_for_segment_routing_witness :
    parse_statement 2 ⟨"", "w8.zz"⟩
      (.mk .for_stm "" ⟨0, 13⟩
        [.mk .continue_stm "continue" ⟨1, 2⟩ [],
         .mk .semicolon ";" ⟨3, 4⟩ [],
         .mk .continue_stm "continue" ⟨5, 6⟩ [],
         .mk .semicolon ";" ⟨7, 8⟩ [],
         .mk .continue_stm "continue" ⟨9, 10⟩ [],
         .mk .block "{}" ⟨11, 13⟩ []]) =
      .ok (.For (some (.Continue ⟨"w8.zz", ⟨1, 2⟩⟩))
           (some (.Continue ⟨"w8.zz", ⟨5, 6⟩⟩))
           (some (.Continue ⟨"w8.zz", ⟨9, 10⟩⟩))
           (.mk [] ⟨"w8.zz", ⟨13, 13⟩⟩)) := by
  exact C8_for_segment_routing 1 ⟨"", "w8.zz"⟩ "" ⟨0, 13⟩
    (some (.mk .continue_stm "continue" ⟨1, 2⟩ []))
    (some (.mk .continue_stm "continue" ⟨5, 6⟩ []))
    (some (.mk .continue_stm "continue" ⟨9, 10⟩ []))
    (.mk .semicolon ";" ⟨3, 4⟩ []) (.mk .semicolon ";" ⟨7, 8⟩ [])
    (.mk .block "{}" ⟨11, 13⟩ [])
    (some (.Continue ⟨"w8.zz", ⟨1, 2⟩⟩)) (some (.Continue ⟨"w8.zz", ⟨5, 6⟩⟩))
    (some (.Continue ⟨"w8.zz", ⟨9, 10⟩⟩)) (.mk [] ⟨"w8.zz", ⟨13, 13⟩⟩)
    rfl rfl
    ⟨by simp [Node.rule], rfl⟩ ⟨by simp [Node.rule], rfl⟩
    ⟨by simp [Node.rule], by simp [Node.rule], rfl⟩
    rfl rfl

/-! ## Every fatal exit carries status 9 (claim C7) -/

/-- The property that a failure, if it is a logged fatal exit, exits
with status 9. -/
def PErr.ok9 : PErr → Prop
  | .fatal c _ => c = 9
  | _ => True

/-- A computation whose every error outcome satisfies `PErr.ok9`. -/
def E9 {α : Type} (x : Except PErr α) : Prop :=
  ∀ e, x = .error e → e.ok9

theorem E9_ok {α : Type} (a : α) : E9 (.ok a) := by
  intro e h
  exact absurd h (by simp)

theorem E9_err {α : Type} {e : PErr} (h : e.ok9) : E9 (α := α) (.error e) := by
  intro e' he
  cases he
  exact h

theorem E9_fatal9 {α : Type} (log : String) :
    E9 (α := α) (.error (.fatal 9 log)) := E9_err rfl

theorem E9_panic {α : Type} (m : String) :
    E9 (α := α) (.error (.panicked m)) := E9_err trivial

theorem E9_fuel {α : Type} : E9 (α := α) (.error .fuel) := E9_err trivial

theorem E9_pest {α : Type} (e : PestError) :
    E9 (α := α) (.error (.pest e)) := E9_err trivial

/-- The explicit error-propagating match used throughout the
embedding preserves `E9`. -/
theorem E9_match {α β : Type} {x : Except PErr α} {f : α → Except PErr β}
    (hx : E9 x) (hf : ∀ a, E9 (f a)) :
    E9 (match x with
        | .error e => .error e
        | .ok a => f a) := by
  cases x with
  | error e => exact E9_err (hx e rfl)
  | ok a => exact hf a

theorem E9_bind {α β : Type} {x : Except PErr α} {f : α → Except PErr β}
    (hx : E9 x) (hf : ∀ a, E9 (f a)) : E9 (x >>= f) := by
  cases x with
  | error e => exact E9_err (hx e rfl)
  | ok a => exact hf a

theorem E9_foldlM {α β : Type} (f : β → α → Except PErr β)
    (hf : ∀ b a, E9 (f b a)) (b : β) (l : List α) : E9 (l.foldlM f b) := by
  induction l generalizing b with
  | nil => exact E9_ok b
  | cons x xs ih =>
    rw [List.foldlM_cons]
    exact E9_bind (hf b x) (fun b' => ih b')

theorem E9_mapM {α β : Type} (f : α → Except PErr β)
    (hf : ∀ a, E9 (f a)) (l : List α) : E9 (l.mapM f) := by
  induction l with
  | nil => exact E9_ok []
  | cons x xs ih =>
    rw [List.mapM_cons]
    exact E9_bind (hf x) (fun y => E9_bind ih (fun ys => E9_ok (y :: ys)))

theorem E9_typeScan (n : Ctx) (msg : String) (tags : Tags) (ptr : List Pointer)
    (l : List Node) : E9 (typeScan n msg tags ptr l) := by
  induction l generalizing tags ptr with
  | nil => exact E9_ok _
  | cons c rest ih =>
    unfold typeScan
    split
    · exact ih _ _
    · exact ih _ _
    · split
      · exact E9_panic _
      · exact ih _ _
    · exact E9_panic _

theorem E9_parse_named_type (n : Ctx) (decl : Node) :
    E9 (parse_named_type n decl) := by
  unfold parse_named_type
  repeat' split
  all_goals first
    | exact E9_ok _
    | exact E9_panic _
    | exact E9_fatal9 _
    | (rename_i e heq; exact E9_err (E9_typeScan _ _ _ _ _ e heq))

theorem E9_parse_anon_type (n : Ctx) (decl : Node) :
    E9 (parse_anon_type n decl) := by
  unfold parse_anon_type
  repeat' split
  all_goals first
    | exact E9_ok _
    | exact E9_panic _
    | exact E9_fatal9 _
    | (rename_i e heq; exact E9_err (E9_typeScan _ _ _ _ _ e heq))

theorem E9_parse_callF (pe : Node → Except PErr Expression)
    (hpe : ∀ c, E9 (pe c)) (n : Ctx) (c : Node) :
    E9 (parse_callF pe n c) := by
  unfold parse_callF
  repeat' split
  all_goals first
    | exact E9_ok _
    | exact E9_panic _
    | (rename_i e heq
       exact E9_err ((E9_foldlM _ (fun b a => by
         repeat' split
         all_goals first
           | exact E9_panic _
           | exact E9_mapM _ hpe _) _ _) e heq))

theorem E9_buildOperandF (pe : Node → Except PErr Expression)
    (hpe : ∀ c, E9 (pe c)) (n : Ctx) (c : Node) :
    E9 (buildOperandF pe n c) := by
  unfold buildOperandF
  repeat' split
  all_goals first
    | exact E9_ok _
    | exact E9_panic _
    | exact E9_fatal9 _
    | exact hpe _
    | exact E9_parse_callF pe hpe n _
    | (rename_i e heq
       refine E9_err ((?_ : E9 _) e heq)
       first
       | exact hpe _
       | exact E9_parse_anon_type _ _
       | (refine E9_mapM _ (fun a => ?_) _
          repeat' split
          all_goals first
            | exact E9_ok _
            | exact E9_panic _
            | exact hpe _
            | (rename_i e2 heq2
               refine E9_err ((?_ : E9 _) e2 heq2)
               exact hpe _))
       | (repeat' split
          all_goals first
            | exact E9_ok _
            | exact E9_panic _
            | exact hpe _))

theorem E9_exprLoopF (build : Node → Except PErr Expression)
    (hb : ∀ c, E9 (build c)) (n : Ctx)
    (sop : Option (String × Location))
    (sr : List ((String × Location) × Expression)) (cs : List Node) :
    E9 (exprLoopF build n sop sr cs) := by
  induction cs generalizing sop sr with
  | nil => exact E9_ok _
  | cons c rest ih =>
    unfold exprLoopF
    repeat' split
    all_goals first
      | exact E9_ok _
      | exact E9_panic _
      | exact ih _ _
      | (rename_i e heq; exact E9_err (hb _ e heq))

theorem E9_parse_expr (fuel : Nat) (n : Ctx) (decl : Node) :
    E9 (parse_expr fuel n decl) := by
  induction fuel generalizing decl with
  | zero => exact E9_fuel
  | succ fuel ih =>
    unfold parse_expr
    repeat' split
    all_goals first
      | exact E9_ok _
      | exact E9_panic _
      | (rename_i e heq
         exact E9_err ((E9_exprLoopF _ (E9_buildOperandF _ ih n) n _ _ _) e heq))

theorem E9_parse_blockF (ps : Node → Except PErr Statement)
    (hps : ∀ c, E9 (ps c)) (n : Ctx) (decl : Node) :
    E9 (parse_blockF ps n decl) := by
  unfold parse_blockF
  repeat' split
  all_goals first
    | exact E9_ok _
    | exact E9_panic _
    | (rename_i e heq; exact E9_err ((E9_mapM _ hps _) e heq))

theorem E9_forStep (ps : Node → Except PErr Statement)
    (pb : Node → Except PErr Block)
    (hps : ∀ c, E9 (ps c)) (hpb : ∀ c, E9 (pb c))
    (st : ForState) (part : Node) : E9 (forStep ps pb st part) := by
  unfold forStep
  repeat' split
  all_goals first
    | exact E9_ok _
    | exact E9_panic _
    | (rename_i e heq
       refine E9_err ((?_ : E9 _) e heq)
       first
       | exact hps _
       | exact hpb _)

theorem E9_parse_statement (fuel : Nat) (n : Ctx) (stm : Node) :
    E9 (parse_statement fuel n stm) := by
  induction fuel generalizing stm with
  | zero => exact E9_fuel
  | succ fuel ih =>
    unfold parse_statement
    repeat' split
    all_goals first
      | exact E9_ok _
      | exact E9_panic _
      | (rename_i e heq
         refine E9_err ((?_ : E9 _) e heq)
         first
         | exact E9_parse_expr fuel n _
         | exact E9_parse_blockF _ ih n _
         | exact E9_foldlM _ (fun b a => E9_forStep _ _ ih (E9_parse_blockF _ ih n) b a) _ _
         | (refine E9_foldlM _ (fun b a => ?_) _ _
            repeat' split
            all_goals first
              | exact E9_ok _
              | exact E9_panic _
              | (rename_i e2 heq2
                 refine E9_err ((?_ : E9 _) e2 heq2)
                 first
                 | exact E9_parse_expr fuel n _
                 | exact E9_parse_named_type n _)))

theorem E9_parse_block (fuel : Nat) (n : Ctx) (decl : Node) :
    E9 (parse_block fuel n decl) := by
  cases fuel with
  | zero => exact E9_fuel
  | succ fuel =>
    exact E9_parse_blockF _ (E9_parse_statement fuel n) n decl

theorem E9_exportedScan (cs : List Node) (ea : Option String) :
    E9 (exportedScan cs ea) := by
  induction cs generalizing ea with
  | nil => exact E9_ok _
  | cons c rest ih =>
    unfold exportedScan
    split
    · exact ih _
    · exact E9_panic _

theorem E9_macroStep (fuel : Nat) (n : Ctx) (st : MacroState) (part : Node) :
    E9 (macroStep fuel n st part) := by
  unfold macroStep
  repeat' split
  all_goals first
    | exact E9_ok _
    | exact E9_panic _
    | (rename_i e heq
       refine E9_err ((?_ : E9 _) e heq)
       first
       | exact E9_exportedScan _ _
       | exact E9_parse_block fuel n _)

theorem E9_parseMacroDecl (fuel : Nat) (n : Ctx) (loc : Location)
    (parts : List Node) : E9 (parseMacroDecl fuel n loc parts) := by
  unfold parseMacroDecl
  repeat' split
  all_goals first
    | exact E9_ok _
    | exact E9_panic _
    | (rename_i e heq
       exact E9_err ((E9_foldlM _ (E9_macroStep fuel n) _ _) e heq))

theorem E9_functionStep (fuel : Nat) (n : Ctx) (st : FunctionState) (part : Node) :
    E9 (functionStep fuel n st part) := by
  unfold functionStep
  repeat' split
  all_goals first
    | exact E9_ok _
    | exact E9_panic _
    | (rename_i e heq
       refine E9_err ((?_ : E9 _) e heq)
       first
       | exact E9_exportedScan _ _
       | exact E9_parse_anon_type n _
       | exact E9_parse_block fuel n _
       | (refine E9_foldlM _ (fun b a => ?_) _ _
          repeat' split
          all_goals first
            | exact E9_ok _
            | exact E9_panic _
            | (rename_i e2 heq2
               refine E9_err ((?_ : E9 _) e2 heq2)
               exact E9_parse_named_type n _)))

theorem E9_parseFunctionDecl (fuel : Nat) (n : Ctx) (loc : Location)
    (parts : List Node) : E9 (parseFunctionDecl fuel n loc parts) := by
  unfold parseFunctionDecl
  repeat' split
  all_goals first
    | exact E9_ok _
    | exact E9_panic _
    | (rename_i e heq
       exact E9_err ((E9_foldlM _ (E9_functionStep fuel n) _ _) e heq))

theorem E9_structStep (fuel : Nat) (n : Ctx) (st : StructState) (part : Node) :
    E9 (structStep fuel n st part) := by
  unfold structStep
  repeat' split
  all_goals first
    | exact E9_ok _
    | exact E9_panic _
    | (rename_i e heq
       refine E9_err ((?_ : E9 _) e heq)
       first
       | exact E9_exportedScan _ _
       | exact E9_parse_named_type n _
       | exact E9_parse_expr fuel n _)

theorem E9_parseStructDecl (fuel : Nat) (n : Ctx) (parts : List Node) :
    E9 (parseStructDecl fuel n parts) := by
  unfold parseStructDecl
  repeat' split
  all_goals first
    | exact E9_ok _
    | exact E9_panic _
    | (rename_i e heq
       exact E9_err ((E9_foldlM _ (E9_structStep fuel n) _ _) e heq))

theorem E9_parse_importname (fuel : Nat) (decl : Node) :
    E9 (parse_importname fuel decl) := by
  induction fuel generalizing decl with
  | zero => exact E9_fuel
  | succ fuel ih =>
    unfold parse_importname
    repeat' split
    all_goals first
      | exact E9_ok _
      | exact E9_panic _
      | (rename_i e heq
         refine E9_err ((?_ : E9 _) e heq)
         refine E9_foldlM _ (fun b a => ?_) _ _
         repeat' split
         all_goals first
           | exact E9_ok _
           | exact E9_panic _
           | (rename_i e2 heq2
              refine E9_err ((?_ : E9 _) e2 heq2)
              first
              | exact ih _
              | (refine E9_foldlM _ (fun b2 a2 => ?_) _ _
                 repeat' split
                 all_goals first
                   | exact E9_ok _
                   | exact E9_panic _
                   | (rename_i e3 heq3
                      refine E9_err ((?_ : E9 _) e3 heq3)
                      repeat' split
                      all_goals first
                        | exact E9_ok _
                        | exact E9_panic _))))

theorem E9_importStep (fuel : Nat) (st : ImportState) (part : Node) :
    E9 (importStep fuel st part) := by
  unfold importStep
  repeat' split
  all_goals first
    | exact E9_ok _
    | exact E9_panic _
    | (rename_i e heq
       exact E9_err ((E9_parse_importname fuel _) e heq))

theorem E9_parseImportDecl (fuel : Nat) (loc : Location) (parts : List Node) :
    E9 (parseImportDecl fuel loc parts) := by
  unfold parseImportDecl
  repeat' split
  all_goals first
    | exact E9_ok _
    | exact E9_panic _
    | (rename_i e heq
       exact E9_err ((E9_foldlM _ (E9_importStep fuel) _ _) e heq))

theorem E9_scStep (fuel : Nat) (n : Ctx) (rule : Rule) (st : SCState)
    (part : Node) : E9 (scStep fuel n rule st part) := by
  unfold scStep
  repeat' split
  all_goals first
    | exact E9_ok _
    | exact E9_panic _
    | exact E9_fatal9 _
    | (rename_i e heq
       refine E9_err ((?_ : E9 _) e heq)
       first
       | exact E9_parse_named_type n _
       | exact E9_parse_expr fuel n _)

theorem E9_parseStaticConst (fuel : Nat) (n : Ctx) (rule : Rule)
    (loc : Location) (parts : List Node) :
    E9 (parseStaticConst fuel n rule loc parts) := by
  unfold parseStaticConst
  repeat' split
  all_goals first
    | exact E9_ok _
    | exact E9_panic _
    | exact E9_fatal9 _
    | (rename_i e heq
       exact E9_err ((E9_foldlM _ (E9_scStep fuel n rule) _ _) e heq))

theorem E9_declEffect (fuel : Nat) (n : Ctx) (decl : Node) :
    E9 (declEffect fuel n decl) := by
  intro e h
  simp only [declEffect] at h
  split at h
  · rcases hX : parseMacroDecl fuel n (nloc n decl) decl.children with er | l <;>
      rw [hX] at h
    · cases h; exact E9_parseMacroDecl fuel n _ _ _ hX
    · cases h
  · rcases hX : parseFunctionDecl fuel n (nloc n decl) decl.children with er | l <;>
      rw [hX] at h
    · cases h; exact E9_parseFunctionDecl fuel n _ _ _ hX
    · cases h
  · cases h
  · rcases hX : parseStructDecl fuel n decl.children with er | l <;>
      rw [hX] at h
    · cases h; exact E9_parseStructDecl fuel n _ _ hX
    · cases h
  · rcases hX : parseImportDecl fuel (nloc n decl) decl.children with er | l <;>
      rw [hX] at h
    · cases h; exact E9_parseImportDecl fuel _ _ _ hX
    · cases h
  · cases h
  · rcases hX : parseStaticConst fuel n decl.rule (nloc n decl) decl.children with er | l <;>
      rw [hX] at h
    · cases h; exact E9_parseStaticConst fuel n _ _ _ _ hX
    · cases h
  · rcases hX : parseStaticConst fuel n decl.rule (nloc n decl) decl.children with er | l <;>
      rw [hX] at h
    · cases h; exact E9_parseStaticConst fuel n _ _ _ _ hX
    · cases h
  · cases h; trivial

theorem E9_pStep (fuel : Nat) (n : Ctx) (m : Module) (decl : Node) :
    E9 (pStep fuel n m decl) := by
  unfold pStep
  repeat' split
  all_goals first
    | exact E9_ok _
    | (rename_i e heq
       exact E9_err ((E9_declEffect fuel n _) e heq))

theorem E9_p (fuel : Nat) (path src : String) (pest : Except PestError Node) :
    E9 (p fuel path src pest) := by
  unfold p
  split
  · exact E9_pest _
  · exact E9_foldlM _ (E9_pStep fuel _) _ _

theorem E9_parse (fuel : Nat) (path src : String)
    (pest : Except PestError Node) : E9 (parse fuel path src pest) := by
  intro e h
  unfold parse at h
  rcases hp : p fuel path src pest with err | md <;> rw [hp] at h
  · have h9 := E9_p fuel path src pest err hp
    rcases err with pe | ⟨c, log⟩ | m | _
    · cases (show Except.error (α := Module)
          (.fatal 9 ("syntax error\n" ++ (pe.with_path path).display)) =
          .error e from h)
      rfl
    · cases (show Except.error (α := Module) (.fatal c log) = .error e from h)
      exact h9
    · cases (show Except.error (α := Module) (.panicked m) = .error e from h)
      trivial
    · cases (show Except.error (α := Module) .fuel = .error e from h)
      trivial
  · exact absurd h (by simp)

/-- Claim C7 (amended): `parse` either returns a complete module or
fails; every logged fatal exit carries status 9 (`PErr.ok9`); and on
the grammar engine's own error path the diagnostic is exactly
`"syntax error\n"` followed by the formatted error with the path
attached.  (The counterexample shows the static-visibility diagnostic
does not begin with "syntax error".) -/
theorem C7_exit_status_nine (fuel : Nat) (path src : String)
    (pest : Except PestError Node) :
    ((∃ m, parse fuel path src pest = .ok m) ∨
     (∃ err, parse fuel path src pest = .error err ∧ err.ok9))
    ∧ ∀ e : PestError, parse fuel path src (.error e) =
        .error (.fatal 9 ("syntax error\n" ++ (e.with_path path).display)) := by
  constructor
  · rcases hr : parse fuel path src pest with err | m
    · exact Or.inr ⟨err, rfl, E9_parse fuel path src pest err hr⟩
    · exact Or.inl ⟨m, rfl⟩
  · intro e
    rfl

/-- Counterexample for C7: parsing `shared static int x = 1;` exits
with status 9 but the logged diagnostic is
`"main.zz : --> :7\n..."` — it carries the file path yet does not
begin with "syntax error" as the claim requires of every
termination. -/
theorem C7_counterexample :
    parse 5 "main.zz" "" (.ok (.mk .file "" ⟨0, 40⟩
      [.mk .istatic "static" ⟨0, 30⟩
        [.mk .key_shared "shared" ⟨7, 13⟩ [],
         .mk .named_type "int x" ⟨14, 19⟩
           [.mk .type_name "int" ⟨14, 17⟩ [], .mk .ident "x" ⟨18, 19⟩ []],
         .mk .expr "1" ⟨22, 23⟩ [.mk .number_literal "1" ⟨22, 23⟩ []]]])) =
      .error (.fatal 9 "main.zz : --> :7\ncannot change visibility of static variable")
    ∧ ¬ ("syntax error".data <+:
        "main.zz : --> :7\ncannot change visibility of static variable".data)
    ∧ ("main.zz".data <+:
        "main.zz : --> :7\ncannot change visibility of static variable".data) :=
  ⟨rfl, by decide, by decide⟩

/-! ## The static/constant finalizer (claims C3, C4, C10) -/

/-- Shape of every `Local` the static/constant branch can produce:
`export_as` is hardcoded `None`, the location is the declaration's,
and for a static the visibility is hardcoded `Object`. -/
theorem staticConst_ok_shape (fuel : Nat) (n : Ctx) (rule : Rule)
    (loc : Location) (parts : List Node) (l : Local)
    (h : parseStaticConst fuel n rule loc parts = .ok l) :
    l.export_as = none ∧ l.loc = loc ∧ (rule = .istatic → l.vis = .Object) := by
  unfold parseStaticConst at h
  split at h
  · exact absurd h (by simp)
  · split at h
    · exact absurd h (by simp)
    · split at h
      · split at h
        · exact absurd h (by simp)
        · split at h
          · exact absurd h (by simp)
          · cases h
            exact ⟨rfl, rfl, fun hr => absurd hr (by simp)⟩
      · split at h
        · exact absurd h (by simp)
        · cases h
          exact ⟨rfl, rfl, fun _ => rfl⟩
      · exact absurd h (by simp)

/-- Claim C10: the `Def::Static` construction hardcodes
`Visibility::Object`: every `Local` produced for a static has
visibility `Object`, whatever visibility state the scan accumulated. -/
theorem C10_static_visibility_hardcoded (fuel : Nat) (n : Ctx) (loc : Location)
    (parts : List Node) (l : Local)
    (h : parseStaticConst fuel n .istatic loc parts = .ok l) :
    l.vis = .Object :=
  (staticConst_ok_shape fuel n .istatic loc parts l h).2.2 rfl

/-- Witness for C10: `static int counter = 0;` yields a Local with
visibility `Object`. -/
theorem C10_static_visibility_hardcoded_witness :
    parseStaticConst 2 ⟨"", "w10.zz"⟩ .istatic ⟨"w10.zz", ⟨0, 22⟩⟩
      [.mk .named_type "int counter" ⟨7, 18⟩
         [.mk .type_name "int" ⟨7, 10⟩ [], .mk .ident "counter" ⟨11, 18⟩ []],
       .mk .expr "0" ⟨21, 22⟩ [.mk .number_literal "0" ⟨21, 22⟩ []]] =
      .ok ⟨"counter", none, .Object, ⟨"w10.zz", ⟨0, 22⟩⟩,
           .Static ⟨[]⟩ .Static
             ⟨Name.fromStr "int", ⟨"w10.zz", ⟨7, 18⟩⟩, []⟩
             (.Literal "0" ⟨"w10.zz", ⟨21, 22⟩⟩)⟩
    ∧ Local.vis ⟨"counter", none, .Object, ⟨"w10.zz", ⟨0, 22⟩⟩,
        .Static ⟨[]⟩ .Static ⟨Name.fromStr "int", ⟨"w10.zz", ⟨7, 18⟩⟩, []⟩
          (.Literal "0" ⟨"w10.zz", ⟨21, 22⟩⟩)⟩ = .Object :=
  ⟨rfl, C10_static_visibility_hardcoded 2 ⟨"", "w10.zz"⟩ ⟨"w10.zz", ⟨0, 22⟩⟩
    [.mk .named_type "int counter" ⟨7, 18⟩
       [.mk .type_name "int" ⟨7, 10⟩ [], .mk .ident "counter" ⟨11, 18⟩ []],
     .mk .expr "0" ⟨21, 22⟩ [.mk .number_literal "0" ⟨21, 22⟩ []]] _ rfl⟩

/-- Claim C3 (amended): a top-level constant whose export keyword
carries a rename identifier is not rejected — the `exported` child of
an `istatic`/`constant` declaration only sets visibility `Export` and
never reads the rename — and every `Local` produced for a constant
has `export_as = none`, so no constant ever carries an export
rename. -/
theorem C3_const_export_rename_discarded (fuel : Nat) (n : Ctx)
    (loc : Location) (parts : List Node) (l : Local)
    (h : parseStaticConst fuel n .constant loc parts = .ok l) :
    l.export_as = none :=
  (staticConst_ok_shape fuel n .constant loc parts l h).1

/-- Witness for C3 (amended): `export as renamed const int FOO = 1;`
is accepted with visibility `Export` and `export_as = none`. -/
theorem C3_const_export_rename_discarded_witness :
    parseStaticConst 2 ⟨"", "w3.zz"⟩ .constant ⟨"w3.zz", ⟨0, 30⟩⟩
      [.mk .exported "export" ⟨0, 6⟩ [.mk .ident "renamed" ⟨7, 14⟩ []],
       .mk .named_type "int FOO" ⟨15, 22⟩
         [.mk .type_name "int" ⟨15, 18⟩ [], .mk .ident "FOO" ⟨19, 22⟩ []],
       .mk .expr "1" ⟨25, 26⟩ [.mk .number_literal "1" ⟨25, 26⟩ []]] =
      .ok ⟨"FOO", none, .Export, ⟨"w3.zz", ⟨0, 30⟩⟩,
           .Const ⟨Name.fromStr "int", ⟨"w3.zz", ⟨15, 22⟩⟩, []⟩
             (.Literal "1" ⟨"w3.zz", ⟨25, 26⟩⟩)⟩
    ∧ Local.export_as ⟨"FOO", none, .Export, ⟨"w3.zz", ⟨0, 30⟩⟩,
        .Const ⟨Name.fromStr "int", ⟨"w3.zz", ⟨15, 22⟩⟩, []⟩
          (.Literal "1" ⟨"w3.zz", ⟨25, 26⟩⟩)⟩ = none :=
  ⟨rfl, C3_const_export_rename_discarded 2 ⟨"", "w3.zz"⟩ ⟨"w3.zz", ⟨0, 30⟩⟩
    [.mk .exported "export" ⟨0, 6⟩ [.mk .ident "renamed" ⟨7, 14⟩ []],
     .mk .named_type "int FOO" ⟨15, 22⟩
       [.mk .type_name "int" ⟨15, 18⟩ [], .mk .ident "FOO" ⟨19, 22⟩ []],
     .mk .expr "1" ⟨25, 26⟩ [.mk .number_literal "1" ⟨25, 26⟩ []]] _ rfl⟩

/-- Counterexample for C3: a whole-file parse of
`export as renamed const int FOO = 1;` returns a complete module —
no fatal syntax error — whose one local has visibility `Export` and
`export_as = none`: the rename was silently discarded, not
rejected. -/
theorem C3_counterexample :
    parse 5 "main.zz" "" (.ok (.mk .file "" ⟨0, 40⟩
      [.mk .constant "" ⟨0, 30⟩
        [.mk .exported "export" ⟨0, 6⟩ [.mk .ident "renamed" ⟨7, 14⟩ []],
         .mk .named_type "int FOO" ⟨15, 22⟩
           [.mk .type_name "int" ⟨15, 18⟩ [], .mk .ident "FOO" ⟨19, 22⟩ []],
         .mk .expr "1" ⟨25, 26⟩ [.mk .number_literal "1" ⟨25, 26⟩ []]]])) =
      .ok ⟨"main.zz", ["main.zz"], ["main.zz"],
           [⟨"FOO", none, .Export, ⟨"main.zz", ⟨0, 30⟩⟩,
             .Const ⟨Name.fromStr "int", ⟨"main.zz", ⟨15, 22⟩⟩, []⟩
               (.Literal "1" ⟨"main.zz", ⟨25, 26⟩⟩)⟩], []⟩ := rfl

/-- Claim C4: a `shared` or `export` keyword child of a static
declaration, once reached, is the fatal exit-9 visibility error
(`"{path} : {error}"` is logged), and the declaration can never
produce a `Local`at all — in particular never one with `Shared` or
`Export` visibility. -/
theorem C4_static_visibility_fatal (fuel : Nat) (n : Ctx) (loc : Location)
    (pre post : List Node) (kw : Node) (st' : SCState)
    (hk : kw.rule = .key_shared ∨ kw.rule = .exported)
    (hpre : pre.foldlM (scStep fuel n .istatic) {} = .ok st') :
    parseStaticConst fuel n .istatic loc (pre ++ kw :: post) =
      .error (.fatal 9 (staticVisLog n kw))
    ∧ (∀ l : Local, parseStaticConst fuel n .istatic loc (pre ++ kw :: post) ≠ .ok l)
    ∧ (∀ parts (l : Local),
        parseStaticConst fuel n .istatic loc parts = .ok l →
          l.vis ≠ .Shared ∧ l.vis ≠ .Export) := by
  have hstep : scStep fuel n .istatic st' kw =
      .error (.fatal 9 (staticVisLog n kw)) := by
    rcases hk with hk | hk <;> simp [scStep, hk]
  have hfull : (pre ++ kw :: post).foldlM (scStep fuel n .istatic)
      ({} : SCState) = .error (.fatal 9 (staticVisLog n kw)) := by
    rw [List.foldlM_append, hpre]
    show (kw :: post).foldlM (scStep fuel n .istatic) st' = _
    rw [List.foldlM_cons, hstep]
    rfl
  refine ⟨?_, ?_, ?_⟩
  · unfold parseStaticConst
    rw [hfull]
  · intro l hcon
    unfold parseStaticConst at hcon
    rw [hfull] at hcon
    exact absurd hcon (by simp)
  · intro parts l hok
    have := (staticConst_ok_shape fuel n .istatic loc parts l hok).2.2 rfl
    rw [this]
    exact ⟨by simp, by simp⟩

/-- Witness for C4: `shared static int x = 1;` (the keyword first,
so `pre = []`) is the fatal visibility error and produces no Local. -/
theorem C4_static_visibility_fatal_witness :
    parseStaticConst 2 ⟨"", "w4.zz"⟩ .istatic ⟨"w4.zz", ⟨0, 24⟩⟩
      [.mk .key_shared "shared" ⟨0, 6⟩ [],
       .mk .named_type "int x" ⟨14, 19⟩
         [.mk .type_name "int" ⟨14, 17⟩ [], .mk .ident "x" ⟨18, 19⟩ []],
       .mk .expr "1" ⟨22, 23⟩ [.mk .number_literal "1" ⟨22, 23⟩ []]] =
      .error (.fatal 9 "w4.zz : --> :0\ncannot change visibility of static variable") := by
  have h := C4_static_visibility_fatal 2 ⟨"", "w4.zz"⟩ ⟨"w4.zz", ⟨0, 24⟩⟩
    [] [.mk .named_type "int x" ⟨14, 19⟩
          [.mk .type_name "int" ⟨14, 17⟩ [], .mk .ident "x" ⟨18, 19⟩ []],
        .mk .expr "1" ⟨22, 23⟩ [.mk .number_literal "1" ⟨22, 23⟩ []]]
    (.mk .key_shared "shared" ⟨0, 6⟩ []) {} (Or.inl rfl) rfl
  exact h.1

/-! ## Source-order preservation of the top-level loop (claim C6) -/

theorem pStep_ok (fuel : Nat) (n : Ctx) (m : Module) (decl : Node)
    (e : List Local × List Import) (h : declEffect fuel n decl = .ok e) :
    pStep fuel n m decl =
      .ok { m with locals := m.locals ++ e.1, imports := m.imports ++ e.2 } := by
  obtain ⟨ls, is⟩ := e
  unfold pStep
  rw [h]

theorem pFold (fuel : Nat) (n : Ctx) (decls : List Node)
    (effs : List (List Local × List Import))
    (h : List.Forall₂ (fun d e => declEffect fuel n d = .ok e) decls effs) :
    ∀ m0 : Module, decls.foldlM (pStep fuel n) m0 =
      .ok { m0 with locals := m0.locals ++ (effs.map Prod.fst).flatten,
                    imports := m0.imports ++ (effs.map Prod.snd).flatten } := by
  induction h with
  | nil =>
    intro m0
    simp
    rfl
  | @cons d e ds es h1 h2 ih =>
    intro m0
    rw [List.foldlM_cons, pStep_ok fuel n m0 d e h1]
    show ds.foldlM (pStep fuel n)
        { m0 with locals := m0.locals ++ e.1, imports := m0.imports ++ e.2 } = _
    rw [ih]
    simp

/-- What each top-level rule kind contributes: the five declaration
kinds push exactly one `Local` and no import, an import pushes
exactly one `Import` and no local, and `EOI`/`comment` push
nothing. -/
theorem declEffect_shape (fuel : Nat) (n : Ctx) (d : Node)
    (e : List Local × List Import) (h : declEffect fuel n d = .ok e) :
    ((d.rule = .macdecl ∨ d.rule = .function ∨ d.rule = .struct_d ∨
      d.rule = .istatic ∨ d.rule = .constant) → ∃ l, e = ([l], []))
    ∧ (d.rule = .import_ → ∃ i, e = ([], [i]))
    ∧ ((d.rule = .EOI ∨ d.rule = .comment) → e = ([], [])) := by
  refine ⟨?_, ?_, ?_⟩
  · intro hk
    rcases hk with hk | hk | hk | hk | hk
    · simp only [declEffect, hk] at h
      rcases hX : parseMacroDecl fuel n (nloc n d) d.children with er | l <;>
        rw [hX] at h
      · exact absurd h (by simp)
      · exact ⟨l, by cases h; rfl⟩
    · simp only [declEffect, hk] at h
      rcases hX : parseFunctionDecl fuel n (nloc n d) d.children with er | l <;>
        rw [hX] at h
      · exact absurd h (by simp)
      · exact ⟨l, by cases h; rfl⟩
    · simp only [declEffect, hk] at h
      rcases hX : parseStructDecl fuel n d.children with er | l <;>
        rw [hX] at h
      · exact absurd h (by simp)
      · exact ⟨l, by cases h; rfl⟩
    · simp only [declEffect, hk] at h
      rcases hX : parseStaticConst fuel n .istatic (nloc n d) d.children with er | l <;>
        rw [hX] at h
      · exact absurd h (by simp)
      · exact ⟨l, by cases h; rfl⟩
    · simp only [declEffect, hk] at h
      rcases hX : parseStaticConst fuel n .constant (nloc n d) d.children with er | l <;>
        rw [hX] at h
      · exact absurd h (by simp)
      · exact ⟨l, by cases h; rfl⟩
  · intro hk
    simp only [declEffect, hk] at h
    rcases hX : parseImportDecl fuel (nloc n d) d.children with er | i <;>
      rw [hX] at h
    · exact absurd h (by simp)
    · exact ⟨i, by cases h; rfl⟩
  · intro hk
    rcases hk with hk | hk <;> simp only [declEffect, hk] at h <;>
      (cases h; rfl)

/-- Claim C6: a well-formed file whose preprocessed top-level nodes
all process successfully yields a module whose `locals` is exactly
the per-declaration contributions concatenated in source order — one
`Local` per function/macro/struct/static/constant, none for imports
(which land in the separate ordered `imports` list), none for
`EOI`/`comment` — with no reordering, merging or deduplication. -/
theorem C6_declaration_order (fuel : Nat) (path src : String) (rr : Rule)
    (rs : String) (rsp : Span) (decls : List Node)
    (effs : List (List Local × List Import))
    (h : List.Forall₂ (fun d e => declEffect fuel ⟨src, path⟩ d = .ok e) decls effs) :
    p fuel path src (.ok (.mk rr rs rsp decls)) =
      .ok ⟨path, [canonicalize path], [file_stem path],
           (effs.map Prod.fst).flatten, (effs.map Prod.snd).flatten⟩
    ∧ List.Forall₂ (fun d e =>
        ((d.rule = .macdecl ∨ d.rule = .function ∨ d.rule = .struct_d ∨
          d.rule = .istatic ∨ d.rule = .constant) → ∃ l, e = ([l], []))
        ∧ (d.rule = .import_ → ∃ i, e = ([], [i]))
        ∧ ((d.rule = .EOI ∨ d.rule = .comment) → e = ([], []))) decls effs := by
  constructor
  · show (PP path (Node.mk rr rs rsp decls).children).foldlM
        (pStep fuel ⟨src, path⟩)
        ⟨path, [canonicalize path], [file_stem path], [], []⟩ = _
    simp only [PP, Node.children]
    rw [pFold fuel ⟨src, path⟩ decls effs h]
    rfl
  · exact h.imp (fun d e h1 => declEffect_shape fuel ⟨src, path⟩ d e h1)

/-- Witness for C6: a file with a static, an import, a comment and a
constant yields `locals = [x, K]` in source order and the import in
the separate `imports` list. -/
theorem C6_declaration_order_witness :
    p 5 "w6.zz" "" (.ok (.mk .file "" ⟨0, 40⟩
      [.mk .istatic "" ⟨0, 10⟩
        [.mk .named_type "int x" ⟨0, 5⟩
           [.mk .type_name "int" ⟨0, 3⟩ [], .mk .ident "x" ⟨4, 5⟩ []],
         .mk .expr "0" ⟨8, 9⟩ [.mk .number_literal "0" ⟨8, 9⟩ []]],
       .mk .import_ "" ⟨11, 20⟩
         [.mk .importname "foo" ⟨18, 20⟩ [.mk .ident "foo" ⟨18, 20⟩ []]],
       .mk .comment "// c" ⟨21, 25⟩ [],
       .mk .constant "" ⟨26, 36⟩
         [.mk .named_type "int K" ⟨26, 31⟩
            [.mk .type_name "int" ⟨26, 29⟩ [], .mk .ident "K" ⟨30, 31⟩ []],
          .mk .expr "2" ⟨34, 35⟩ [.mk .number_literal "2" ⟨34, 35⟩ []]]])) =
      .ok ⟨"w6.zz", ["w6.zz"], ["w6.zz"],
           [⟨"x", none, .Object, ⟨"w6.zz", ⟨0, 10⟩⟩,
             .Static ⟨[]⟩ .Static ⟨Name.fromStr "int", ⟨"w6.zz", ⟨0, 5⟩⟩, []⟩
               (.Literal "0" ⟨"w6.zz", ⟨8, 9⟩⟩)⟩,
            ⟨"K", none, .Object, ⟨"w6.zz", ⟨26, 36⟩⟩,
             .Const ⟨Name.fromStr "int", ⟨"w6.zz", ⟨26, 31⟩⟩, []⟩
               (.Literal "2" ⟨"w6.zz", ⟨34, 35⟩⟩)⟩],
           [⟨⟨["foo"]⟩, none, [], .Object, ⟨"w6.zz", ⟨11, 20⟩⟩⟩]⟩ := by
  have h := C6_declaration_order 5 "w6.zz" "" .file "" ⟨0, 40⟩
    [.mk .istatic "" ⟨0, 10⟩
      [.mk .named_type "int x" ⟨0, 5⟩
         [.mk .type_name "int" ⟨0, 3⟩ [], .mk .ident "x" ⟨4, 5⟩ []],
       .mk .expr "0" ⟨8, 9⟩ [.mk .number_literal "0" ⟨8, 9⟩ []]],
     .mk .import_ "" ⟨11, 20⟩
       [.mk .importname "foo" ⟨18, 20⟩ [.mk .ident "foo" ⟨18, 20⟩ []]],
     .mk .comment "// c" ⟨21, 25⟩ [],
     .mk .constant "" ⟨26, 36⟩
       [.mk .named_type "int K" ⟨26, 31⟩
          [.mk .type_name "int" ⟨26, 29⟩ [], .mk .ident "K" ⟨30, 31⟩ []],
        .mk .expr "2" ⟨34, 35⟩ [.mk .number_literal "2" ⟨34, 35⟩ []]]]
    [([⟨"x", none, .Object, ⟨"w6.zz", ⟨0, 10⟩⟩,
        .Static ⟨[]⟩ .Static ⟨Name.fromStr "int", ⟨"w6.zz", ⟨0, 5⟩⟩, []⟩
          (.Literal "0" ⟨"w6.zz", ⟨8, 9⟩⟩)⟩], []),
     ([], [⟨⟨["foo"]⟩, none, [], .Object, ⟨"w6.zz", ⟨11, 20⟩⟩⟩]),
     ([], []),
     ([⟨"K", none, .Object, ⟨"w6.zz", ⟨26, 36⟩⟩,
        .Const ⟨Name.fromStr "int", ⟨"w6.zz", ⟨26, 31⟩⟩, []⟩
          (.Literal "2" ⟨"w6.zz", ⟨34, 35⟩⟩)⟩], [])]
    (.cons rfl (.cons rfl (.cons rfl (.cons rfl .nil))))
  exact h.1

end ZZ
